import Mathlib

/-!
Verification of the d365-event-decorators core: the binding registry
(`src/core/Registry.ts`), the dispatcher (`src/core/Dispatcher.ts`) and the
warning aggregator, shallowly embedded as executable Lean definitions.
Host-UI collaborators (the `@sguez/d365-form-helpers` accessors and
subscription entry points) are modelled from their interface description.
-/

namespace D365

/-- The `FormEventTypes` string enum of `src/core/Types.ts`. -/
inductive FormEventTypes where
  | OnLoad | OnDataLoad | Loaded
  | OnSave | OnPostSave
  | OnChange
  | OnLookupTagClick | PreSearch
  | OnTabStateChange | OnTabExpand | OnTabCollapse
  | SubGridOnLoad | SubGridOnRecordSelect
  | OnReadyStateComplete
  | OnProcessStatusChange | OnPreProcessStatusChange
  | OnPreStageChange | OnStageChange | OnStageSelected
  | OnOutputChange
  | OnResultOpened | OnSelection | PostSearch
  deriving DecidableEq, Repr

/-- The string value of each `FormEventTypes` member (used in warning text). -/
def FormEventTypes.str : FormEventTypes → String
  | .OnLoad => "OnLoad"
  | .OnDataLoad => "OnDataLoad"
  | .Loaded => "Loaded"
  | .OnSave => "OnSave"
  | .OnPostSave => "OnPostSave"
  | .OnChange => "OnChange"
  | .OnLookupTagClick => "OnLookupTagClick"
  | .PreSearch => "PreSearch"
  | .OnTabStateChange => "OnTabStateChange"
  | .OnTabExpand => "OnTabExpand"
  | .OnTabCollapse => "OnTabCollapse"
  | .SubGridOnLoad => "SubGridOnLoad"
  | .SubGridOnRecordSelect => "SubGridOnRecordSelect"
  | .OnReadyStateComplete => "OnReadyStateComplete"
  | .OnProcessStatusChange => "OnProcessStatusChange"
  | .OnPreProcessStatusChange => "OnPreProcessStatusChange"
  | .OnPreStageChange => "OnPreStageChange"
  | .OnStageChange => "OnStageChange"
  | .OnStageSelected => "OnStageSelected"
  | .OnOutputChange => "OnOutputChange"
  | .OnResultOpened => "OnResultOpened"
  | .OnSelection => "OnSelection"
  | .PostSearch => "PostSearch"

/-- Membership in the `ComponentEventType` union of `src/core/Types.ts`
(the complement is the `GlobalEventType` union). -/
def isComponentEventType : FormEventTypes → Bool
  | .OnChange => true
  | .OnLookupTagClick => true
  | .PreSearch => true
  | .OnTabStateChange => true
  | .OnTabExpand => true
  | .OnTabCollapse => true
  | .SubGridOnLoad => true
  | .SubGridOnRecordSelect => true
  | .OnReadyStateComplete => true
  | .OnOutputChange => true
  | .OnResultOpened => true
  | .OnSelection => true
  | .PostSearch => true
  | _ => false

/-- `XrmEnum.FormType` (host enum; labels per `FormTypeLabel` in Types.ts). -/
inductive FormType where
  | Undefined | Create | Update | ReadOnly | Disabled
  | BulkEdit | QuickCreate | ReadOptimized
  deriving DecidableEq, Repr

/-- The `FormTypeLabel` record of `src/core/Types.ts`. -/
def FormTypeLabel : FormType → String
  | .Undefined => "Undefined"
  | .Create => "Create"
  | .Update => "Update"
  | .ReadOnly => "ReadOnly"
  | .Disabled => "Disabled"
  | .BulkEdit => "BulkEdit"
  | .QuickCreate => "QuickCreate"
  | .ReadOptimized => "ReadOptimized"

/-- `EventDetail = GlobalEventDetail | ComponentEventDetail` of Types.ts:
a tag plus, for component details only, a `componentNames` list.
`componentNames = none` models a `GlobalEventDetail` (no such field). -/
structure EventDetail where
  type : FormEventTypes
  componentNames : Option (List String)
  deriving DecidableEq, Repr

/-- `isComponentEventDetail` of Types.ts: tests presence of `componentNames`. -/
def isComponentEventDetail (e : EventDetail) : Bool :=
  e.componentNames.isSome

/-- `isMatchingComponentEvent` of Types.ts. -/
def isMatchingComponentEvent (e : EventDetail) (t : FormEventTypes) : Bool :=
  e.type == t && isComponentEventDetail e

/-- Well-typedness induced by the TS union: a detail carries
`componentNames` exactly when its tag is a `ComponentEventType`. -/
def detailWT (e : EventDetail) : Bool :=
  e.componentNames.isSome == isComponentEventType e.type

/-- `FormEventDetails` of Types.ts: one method's accumulated bindings. -/
structure FormEventDetails where
  functionName : String
  formTypes : Option (List FormType)
  events : List EventDetail
  deriving DecidableEq, Repr

/-- Class identity key of the registry `Map<Function, FormEventDetails[]>`. -/
abbrev ClassId := Nat

/-- The registry map, as an association list with `Map.set` semantics. -/
abbrev Registry := List (ClassId × List FormEventDetails)

/-- `getFormEvents` of `src/core/Registry.ts`: entry for a class, or `[]`. -/
def getFormEvents (reg : Registry) (c : ClassId) : List FormEventDetails :=
  match reg.find? (fun p => p.1 == c) with
  | some p => p.2
  | none => []

/-- `eventRegistry.set(constructor, formEvents)`: replace the entry for the
key if present, else append it. -/
def setFormEvents (reg : Registry) (c : ClassId) (l : List FormEventDetails) :
    Registry :=
  match reg with
  | [] => [(c, l)]
  | p :: rest => if p.1 == c then (c, l) :: rest else p :: setFormEvents rest c l

/-- `mergeUnique` of `src/core/Registry.ts`: keep `existing`, append the
incoming elements not already present in `existing`. -/
def mergeUnique {α : Type} [BEq α] (existing incoming : List α) : List α :=
  existing ++ incoming.filter (fun i => !existing.contains i)

/-- The component-name merge of Registry.ts line 34-36: when both the
existing and incoming detail are component details, union the name lists. -/
def mergeEventDetail (e d : EventDetail) : EventDetail :=
  match e.componentNames, d.componentNames with
  | some en, some dn => { e with componentNames := some (mergeUnique en dn) }
  | _, _ => e

/-- Merge `d` into the first event of the list bearing `d.type`
(the in-place mutation of the event found by `events.find`). -/
def updateMatchingEvent : List EventDetail → EventDetail → List EventDetail
  | [], _ => []
  | e :: rest, d =>
      if e.type == d.type then mergeEventDetail e d :: rest
      else e :: updateMatchingEvent rest d

/-- Registry.ts lines 30-36: push the detail if no event of its type
exists, else merge into the existing one. -/
def applyEventDetail (events : List EventDetail) (d : EventDetail) :
    List EventDetail :=
  if events.any (fun e => e.type == d.type) then updateMatchingEvent events d
  else events ++ [d]

/-- Registry.ts lines 29-40: update one `FormEventDetails` with an optional
event detail and an optional form-type list. -/
def upsertBinding (fe : FormEventDetails) (d : Option EventDetail)
    (fts : Option (List FormType)) : FormEventDetails :=
  let fe1 := match d with
    | some d0 => { fe with events := applyEventDetail fe.events d0 }
    | none => fe
  match fts with
  | some fts0 =>
      { fe1 with formTypes := some (mergeUnique (fe1.formTypes.getD []) fts0) }
  | none => fe1

/-- Apply `f` to the first binding of the list named `fn` (the in-place
mutation of the binding found by `formEvents.find`). -/
def updateMatchingBinding :
    List FormEventDetails → String → (FormEventDetails → FormEventDetails) →
    List FormEventDetails
  | [], _, _ => []
  | fe :: rest, fn, f =>
      if fe.functionName == fn then f fe :: rest
      else fe :: updateMatchingBinding rest fn f

/-- `upsertFunctionEvent` restricted to one class's binding list. -/
def upsertList (l : List FormEventDetails) (fn : String)
    (d : Option EventDetail) (fts : Option (List FormType)) :
    List FormEventDetails :=
  if l.any (fun fe => fe.functionName == fn) then
    updateMatchingBinding l fn (fun fe => upsertBinding fe d fts)
  else
    l ++ [{ functionName := fn, formTypes := fts, events := d.toList }]

/-- `upsertFunctionEvent` of `src/core/Registry.ts` (the profiler calls,
pure timing telemetry, are elided). -/
def upsertFunctionEvent (reg : Registry) (c : ClassId) (fn : String)
    (d : Option EventDetail) (fts : Option (List FormType)) : Registry :=
  setFormEvents reg c (upsertList (getFormEvents reg c) fn d fts)

/-- One call to `upsertFunctionEvent` for a fixed (class, method). -/
structure Call where
  detail : Option EventDetail
  formTypes : Option (List FormType)
  deriving DecidableEq, Repr

/-- A call is well-typed when its detail, if any, is. -/
def callWT (cl : Call) : Bool :=
  match cl.detail with
  | some d => detailWT d
  | none => true

/-- Apply a sequence of upsert calls for a fixed (class, method). -/
def applyCalls (reg : Registry) (c : ClassId) (fn : String)
    (cs : List Call) : Registry :=
  cs.foldl (fun r cl => upsertFunctionEvent r c fn cl.detail cl.formTypes) reg

/-- The `MethodBinding` slot for a method name within a class's list. -/
def bindingFor (l : List FormEventDetails) (fn : String) :
    Option FormEventDetails :=
  l.find? (fun fe => fe.functionName == fn)

/-- The evolution of one method's slot under one upsert call. -/
def slotStep (fn : String) (s : Option FormEventDetails) (cl : Call) :
    Option FormEventDetails :=
  match s with
  | none => some { functionName := fn, formTypes := cl.formTypes,
                   events := cl.detail.toList }
  | some fe => some (upsertBinding fe cl.detail cl.formTypes)

/-- A slot is well-typed when all its events are. -/
def slotWT (s : Option FormEventDetails) : Bool :=
  match s with
  | none => true
  | some fe => fe.events.all detailWT

/-- Observation: the slot declares an event of kind `t`. -/
def obsHasKind (s : Option FormEventDetails) (t : FormEventTypes) : Bool :=
  match s with
  | none => false
  | some fe => fe.events.any (fun e => e.type == t)

/-- Observation: name `n` belongs to the slot's kind-`t` component set. -/
def obsHasName (s : Option FormEventDetails) (t : FormEventTypes)
    (n : String) : Bool :=
  match s with
  | none => false
  | some fe => fe.events.any
      (fun e => e.type == t && (e.componentNames.getD []).contains n)

/-- Observation: the slot's form-mode filter is present (defined). -/
def obsModesSet (s : Option FormEventDetails) : Bool :=
  match s with
  | none => false
  | some fe => fe.formTypes.isSome

/-- Observation: mode `m` belongs to the slot's form-mode filter. -/
def obsHasMode (s : Option FormEventDetails) (m : FormType) : Bool :=
  match s with
  | none => false
  | some fe => (fe.formTypes.getD []).contains m

/-- Kind `t` occurs among a call sequence's details. -/
def callsHasKind (cs : List Call) (t : FormEventTypes) : Bool :=
  cs.any (fun cl => match cl.detail with
    | some d => d.type == t
    | none => false)

/-- Name `n` occurs in some kind-`t` detail of the call sequence. -/
def callsHasName (cs : List Call) (t : FormEventTypes) (n : String) : Bool :=
  cs.any (fun cl => match cl.detail with
    | some d => d.type == t && (d.componentNames.getD []).contains n
    | none => false)

/-- Some call of the sequence supplies a form-type list. -/
def callsModesSet (cs : List Call) : Bool :=
  cs.any (fun cl => cl.formTypes.isSome)

/-- Mode `m` occurs in some call's form-type list. -/
def callsHasMode (cs : List Call) (m : FormType) : Bool :=
  cs.any (fun cl => (cl.formTypes.getD []).contains m)

/-! ## Dispatcher model (`src/core/Dispatcher.ts`)

The live UI graph and its registration entry points belong to the external
`@sguez/d365-form-helpers` collaborator; they are modelled from the spec's
interface description (named components resolved by name, one runtime type
predicate per component family, one batch subscription operation per
event kind). Registrations and log output are reified into a state record
so the dispatcher's observable effects can be stated. -/

/-- `Xrm.DisplayState` of a tab: `"collapsed" | "expanded"`. -/
inductive DisplayState where
  | expanded | collapsed
  deriving DecidableEq, Repr

/-- Runtime component families distinguished by the helper predicates
(`isAttribute`, `isTabControl`, `isGridControl`, `isIframeControl`,
`isLookupControl`, `isStandardControl`, `isKbSearchControl`). -/
inductive CompClass where
  | attributeC | tabC | gridC | iframeC | lookupC | standardC | kbSearchC
  deriving DecidableEq, Repr

/-- A live UI component: a name, a family, and (meaningful for tabs only)
a display state. -/
structure Component where
  name : String
  cls : CompClass
  displayState : DisplayState
  deriving DecidableEq, Repr

/-- Modelled from the spec: the live UI-graph handle exposes the component
accessors `getAttribute(names)`, `getTab(names)`, `getControl(names)`,
each resolving names against one collection of live components. -/
structure FormContext where
  attributes : List Component
  tabs : List Component
  controls : List Component
  deriving DecidableEq, Repr

/-- Modelled from the spec: `getAttribute(names)` resolves each requested
name to the live attribute of that name, when present. -/
def getAttribute (fc : FormContext) (names : List String) : List Component :=
  names.filterMap (fun n => fc.attributes.find? (fun it => it.name == n))

/-- Modelled from the spec: `getTab(names)` resolves tab names. -/
def getTab (fc : FormContext) (names : List String) : List Component :=
  names.filterMap (fun n => fc.tabs.find? (fun it => it.name == n))

/-- Modelled from the spec: `getControl(names)` resolves control names
(grids, frames, lookups, custom controls, search widgets alike). -/
def getControl (fc : FormContext) (names : List String) : List Component :=
  names.filterMap (fun n => fc.controls.find? (fun it => it.name == n))

/-- Modelled from the spec: runtime type predicate for attributes. -/
def isAttribute (it : Component) : Bool := it.cls == CompClass.attributeC

/-- Modelled from the spec: runtime type predicate for tabs. -/
def isTabControl (it : Component) : Bool := it.cls == CompClass.tabC

/-- Modelled from the spec: runtime type predicate for subgrids. -/
def isGridControl (it : Component) : Bool := it.cls == CompClass.gridC

/-- Modelled from the spec: runtime type predicate for iframe controls. -/
def isIframeControl (it : Component) : Bool := it.cls == CompClass.iframeC

/-- Modelled from the spec: runtime type predicate for lookup controls. -/
def isLookupControl (it : Component) : Bool := it.cls == CompClass.lookupC

/-- Modelled from the spec: runtime type predicate for standard (PCF-
capable) controls. -/
def isStandardControl (it : Component) : Bool := it.cls == CompClass.standardC

/-- Modelled from the spec: runtime type predicate for knowledge-base
search controls. -/
def isKbSearchControl (it : Component) : Bool := it.cls == CompClass.kbSearchC

/-- The subscription entry points of the form-helpers collaborator that the
dispatcher registers callbacks through. `tabAddTabStateChange` is the
per-tab `tabControl.addTabStateChange` used by the expand/collapse
synthesis; it carries the display state the synthesized wrapper tests. -/
inductive RegOp where
  | addOnDataLoad | addOnLoad | addLoaded
  | addOnSave | addOnPostSave
  | addTabStateChange
  | tabAddTabStateChange (authorizedTabDisplayState : DisplayState)
  | addOnChange
  | addOnLookupTagClick | addPreSearch
  | addSubGridOnLoad | addSubGridOnRecordSelect
  | addOnReadyStateComplete
  | addOnProcessStatusChange | addOnPreProcessStatusChange
  | addOnPreStageChange | addOnStageChange | addOnStageSelected
  | addOnOutputChange
  | addOnResultOpened | addOnSelection | addOnPostSearch
  deriving DecidableEq, Repr

/-- One observed listener registration: which entry point, against which
component names, for which handler method. -/
structure Registration where
  op : RegOp
  itemNames : List String
  functionName : String
  deriving DecidableEq, Repr

/-- Observable dispatcher state: the module-level `warningCounts` map (as
an insertion-ordered association list), the registrations performed, and
the lines emitted through `warnMessage`. -/
structure DState where
  warningCounts : List (String × Nat)
  registrations : List Registration
  emitted : List String
  deriving DecidableEq, Repr

/-- The all-empty dispatcher state. -/
def DState.empty : DState := { warningCounts := [], registrations := [], emitted := [] }

/-- Increment-or-create on the insertion-ordered counter list. -/
def bumpCount : List (String × Nat) → String → List (String × Nat)
  | [], msg => [(msg, 1)]
  | p :: rest, msg =>
      if p.1 == msg then (p.1, p.2 + 1) :: rest
      else p :: bumpCount rest msg

/-- `logGroupedWarning` of Dispatcher.ts lines 14-17. -/
def logGroupedWarning (msg : String) (s : DState) : DState :=
  { s with warningCounts := bumpCount s.warningCounts msg }

/-- The line `flushGroupedWarnings` emits for one counter entry:
a `(Nx)` marker exactly when the count exceeds 1, then a space, then the
message (Dispatcher.ts lines 21-22). -/
def flushLine (p : String × Nat) : String :=
  (if p.2 > 1 then "(" ++ toString p.2 ++ "x)" else "") ++ " " ++ p.1

/-- `flushGroupedWarnings` of Dispatcher.ts lines 19-25: emit one line per
counter entry in insertion order, then clear the counters. -/
def flushGroupedWarnings (s : DState) : DState :=
  { s with emitted := s.emitted ++ s.warningCounts.map flushLine,
           warningCounts := [] }

/-- The occurrence count recorded for a message in a counter list. -/
def countIn (l : List (String × Nat)) (msg : String) : Nat :=
  match l.find? (fun p => p.1 == msg) with
  | some p => p.2
  | none => 0

/-- The occurrence count currently recorded for a message. -/
def countOf (s : DState) (msg : String) : Nat :=
  countIn s.warningCounts msg

/-- The handler instance as the dispatcher sees it: its class name and the
set of member names that are callable on it. -/
structure Instance where
  className : String
  callables : List String
  deriving DecidableEq, Repr

/-- `isFormTypeAuthorized` of Dispatcher.ts lines 76-78. -/
def isFormTypeAuthorized (formTypes : Option (List FormType))
    (currentFormType : FormType) : Bool :=
  match formTypes with
  | none => true
  | some l => l.isEmpty || l.contains currentFormType

/-- The aggregated message of `validateHandlers` (Dispatcher.ts line 83). -/
def validateMsg (className : String) (names : List String) : String :=
  "[D365FormEventDispatcher] " ++ className ++ ".validateHandlers - Method" ++
  (if names.length > 1 then "s" else "") ++ " \"" ++
  String.intercalate ", " names ++ "\" has @FormTypes but no events."

/-- `validateHandlers` of Dispatcher.ts lines 79-84. -/
def validateHandlers (inst : Instance) (handlers : List FormEventDetails)
    (s : DState) : DState :=
  let formUnknownEvents :=
    (handlers.filter (fun h => h.events.isEmpty)).map
      (fun event => event.functionName)
  if formUnknownEvents.length > 0 then
    logGroupedWarning (validateMsg inst.className formUnknownEvents) s
  else s

/-- Append one registration record. -/
def pushRegistration (s : DState) (op : RegOp) (itemNames : List String)
    (fn : String) : DState :=
  { s with registrations :=
      s.registrations ++ [{ op := op, itemNames := itemNames, functionName := fn }] }

/-- `applySimpleEvents` of Dispatcher.ts lines 89-106: for each handler
declaring the event type, apply the form-type filter, skip non-callable
method names, and register the bound method on the form-level entry point. -/
def applySimpleEvents (inst : Instance) (handlers : List FormEventDetails)
    (formType : FormType) (eventType : FormEventTypes) (op : RegOp)
    (s : DState) : DState :=
  let formEvents := handlers.filter
    (fun h => (h.events.find? (fun e => e.type == eventType)).isSome)
  formEvents.foldl (fun s0 formEvent =>
    if !(isFormTypeAuthorized formEvent.formTypes formType) then s0
    else if !(inst.callables.contains formEvent.functionName) then s0
    else pushRegistration s0 op [] formEvent.functionName) s

/-- The aggregated unfound-component message of Dispatcher.ts line 137. -/
def unfoundMsg (className : String) (unfoundItemNames : List String)
    (eventType : FormEventTypes) (fn : String) (formType : FormType) : String :=
  "[D365FormEventDispatcher] " ++ className ++ " - Attribute" ++
  (if unfoundItemNames.length > 1 then "s" else "") ++ " \"" ++
  String.intercalate ", " unfoundItemNames ++
  "\" not found or not applicable for event \"" ++ eventType.str ++
  "\" on function \"" ++ fn ++ "\" and form type " ++
  FormTypeLabel formType ++ "."

/-- `applyComponentEvents` of Dispatcher.ts lines 108-140: per declaring
handler, apply the form-type filter, skip non-callable method names; per
matching component event, resolve the requested names, type-filter the
results, register the callback against the survivors, and queue one
aggregated warning when some requested names went unresolved. The
`register` parameter performs the kind-appropriate batch registration for
the current method. -/
def applyComponentEvents (inst : Instance) (handlers : List FormEventDetails)
    (fc : FormContext) (formType : FormType) (eventType : FormEventTypes)
    (getItems : FormContext → List String → List Component)
    (itemTypeChecker : Component → Bool)
    (getItemName : Component → String)
    (register : FormContext → List Component → String → DState → DState)
    (s : DState) : DState :=
  let formEvents := handlers.filter
    (fun h => (h.events.find? (fun e => e.type == eventType)).isSome)
  formEvents.foldl (fun s0 formEvent =>
    if !(isFormTypeAuthorized formEvent.formTypes formType) then s0
    else if !(inst.callables.contains formEvent.functionName) then s0
    else
      (formEvent.events.filter
        (fun e => isMatchingComponentEvent e eventType)).foldl
        (fun s1 event =>
          let formItemNames := event.componentNames.getD []
          let items := (getItems fc formItemNames).filter itemTypeChecker
          let s2 := register fc items formEvent.functionName s1
          let foundItemNames := items.map getItemName
          let unfoundItemNames := formItemNames.filter
            (fun itemName => !foundItemNames.contains itemName)
          if unfoundItemNames.length > 0 then
            logGroupedWarning
              (unfoundMsg inst.className unfoundItemNames eventType
                formEvent.functionName formType) s2
          else s2) s0) s

/-- A batch registration lambda recording one registration on `op` over
the resolved items. -/
def registerBatch (op : RegOp) (_fc : FormContext) (items : List Component)
    (fn : String) (s : DState) : DState :=
  pushRegistration s op (items.map (fun it => it.name)) fn

/-- `applyOnDataLoadEvents` (Dispatcher.ts line 145). -/
def applyOnDataLoadEvents (inst : Instance) (handlers : List FormEventDetails)
    (formType : FormType) (s : DState) : DState :=
  applySimpleEvents inst handlers formType FormEventTypes.OnDataLoad
    RegOp.addOnDataLoad s

/-- `applyOnLoadEvents` (line 148). -/
def applyOnLoadEvents (inst : Instance) (handlers : List FormEventDetails)
    (formType : FormType) (s : DState) : DState :=
  applySimpleEvents inst handlers formType FormEventTypes.OnLoad
    RegOp.addOnLoad s

/-- `applyLoadedEvents` (line 151). -/
def applyLoadedEvents (inst : Instance) (handlers : List FormEventDetails)
    (formType : FormType) (s : DState) : DState :=
  applySimpleEvents inst handlers formType FormEventTypes.Loaded
    RegOp.addLoaded s

/-- `applyOnSaveEvents` (line 158). -/
def applyOnSaveEvents (inst : Instance) (handlers : List FormEventDetails)
    (formType : FormType) (s : DState) : DState :=
  applySimpleEvents inst handlers formType FormEventTypes.OnSave
    RegOp.addOnSave s

/-- `applyOnPostSaveEvents` (line 161). -/
def applyOnPostSaveEvents (inst : Instance) (handlers : List FormEventDetails)
    (formType : FormType) (s : DState) : DState :=
  applySimpleEvents inst handlers formType FormEventTypes.OnPostSave
    RegOp.addOnPostSave s

/-- `applyOnTabStateChangeEvents` (lines 168-176). -/
def applyOnTabStateChangeEvents (inst : Instance)
    (handlers : List FormEventDetails) (fc : FormContext)
    (formType : FormType) (s : DState) : DState :=
  applyComponentEvents inst handlers fc formType
    FormEventTypes.OnTabStateChange getTab isTabControl
    (fun it => it.name) (registerBatch RegOp.addTabStateChange) s

/-- The incoming event context, as seen by the synthesized tab listener:
what `getEventSource()` on the re-derived form context yields. -/
structure EventCtx where
  eventSource : Option Component
  deriving DecidableEq, Repr

/-- The wrapper listener that `_applyOnTabSpecificStateEvents` installs on
each resolved tab (Dispatcher.ts lines 192-201): re-derive the form
context from the incoming execution context, take its event source as the
originating tab, and when one is present and its display state equals the
authorized state, invoke the user callback. Returns whether the user
callback is invoked. -/
def tabStateChangeWrappedListener (authorizedTabDisplayState : DisplayState)
    (ctx : EventCtx) : Bool :=
  match ctx.eventSource with
  | some tabControl => tabControl.displayState == authorizedTabDisplayState
  | none => false

/-- `_applyOnTabSpecificStateEvents` (lines 177-205): resolve tab names and
subscribe, per resolved tab, a display-state-gated wrapper through the
generic `tabControl.addTabStateChange` notification. -/
def applyOnTabSpecificStateEvents (inst : Instance)
    (handlers : List FormEventDetails) (fc : FormContext)
    (formType : FormType) (eventType : FormEventTypes)
    (authorizedTabDisplayState : DisplayState) (s : DState) : DState :=
  applyComponentEvents inst handlers fc formType eventType getTab
    isTabControl (fun it => it.name)
    (fun _ items fn s0 => items.foldl
      (fun s1 tabControl =>
        pushRegistration s1
          (RegOp.tabAddTabStateChange authorizedTabDisplayState)
          [tabControl.name] fn) s0) s

/-- `applyOnTabExpandEvents` (lines 206-209). -/
def applyOnTabExpandEvents (inst : Instance)
    (handlers : List FormEventDetails) (fc : FormContext)
    (formType : FormType) (s : DState) : DState :=
  applyOnTabSpecificStateEvents inst handlers fc formType
    FormEventTypes.OnTabExpand DisplayState.expanded s

/-- `applyOnTabCollapseEvents` (lines 210-213). -/
def applyOnTabCollapseEvents (inst : Instance)
    (handlers : List FormEventDetails) (fc : FormContext)
    (formType : FormType) (s : DState) : DState :=
  applyOnTabSpecificStateEvents inst handlers fc formType
    FormEventTypes.OnTabCollapse DisplayState.collapsed s

/-- `applyOnChangeEvents` (lines 218-226). -/
def applyOnChangeEvents (inst : Instance) (handlers : List FormEventDetails)
    (fc : FormContext) (formType : FormType) (s : DState) : DState :=
  applyComponentEvents inst handlers fc formType FormEventTypes.OnChange
    getAttribute isAttribute (fun it => it.name)
    (registerBatch RegOp.addOnChange) s

/-- `applyOnLookupTagClickEvents` (lines 231-239). -/
def applyOnLookupTagClickEvents (inst : Instance)
    (handlers : List FormEventDetails) (fc : FormContext)
    (formType : FormType) (s : DState) : DState :=
  applyComponentEvents inst handlers fc formType
    FormEventTypes.OnLookupTagClick getControl isLookupControl
    (fun it => it.name) (registerBatch RegOp.addOnLookupTagClick) s

/-- `applyPreSearchEvents` (lines 240-248). -/
def applyPreSearchEvents (inst : Instance)
    (handlers : List FormEventDetails) (fc : FormContext)
    (formType : FormType) (s : DState) : DState :=
  applyComponentEvents inst handlers fc formType FormEventTypes.PreSearch
    getControl isLookupControl (fun it => it.name)
    (registerBatch RegOp.addPreSearch) s

/-- `applySubGridOnLoadEvents` (lines 253-261). -/
def applySubGridOnLoadEvents (inst : Instance)
    (handlers : List FormEventDetails) (fc : FormContext)
    (formType : FormType) (s : DState) : DState :=
  applyComponentEvents inst handlers fc formType FormEventTypes.SubGridOnLoad
    getControl isGridControl (fun it => it.name)
    (registerBatch RegOp.addSubGridOnLoad) s

/-- `applySubGridOnRecordSelectEvents` (lines 262-270). -/
def applySubGridOnRecordSelectEvents (inst : Instance)
    (handlers : List FormEventDetails) (fc : FormContext)
    (formType : FormType) (s : DState) : DState :=
  applyComponentEvents inst handlers fc formType
    FormEventTypes.SubGridOnRecordSelect getControl isGridControl
    (fun it => it.name) (registerBatch RegOp.addSubGridOnRecordSelect) s

/-- `applyOnReadyStateCompleteEvents` (lines 275-283). -/
def applyOnReadyStateCompleteEvents (inst : Instance)
    (handlers : List FormEventDetails) (fc : FormContext)
    (formType : FormType) (s : DState) : DState :=
  applyComponentEvents inst handlers fc formType
    FormEventTypes.OnReadyStateComplete getControl isIframeControl
    (fun it => it.name) (registerBatch RegOp.addOnReadyStateComplete) s

/-- `applyOnProcessStatusChangeEvents` (line 288). -/
def applyOnProcessStatusChangeEvents (inst : Instance)
    (handlers : List FormEventDetails) (formType : FormType)
    (s : DState) : DState :=
  applySimpleEvents inst handlers formType
    FormEventTypes.OnProcessStatusChange RegOp.addOnProcessStatusChange s

/-- `applyOnPreProcessStatusChangeEvents` (line 291). -/
def applyOnPreProcessStatusChangeEvents (inst : Instance)
    (handlers : List FormEventDetails) (formType : FormType)
    (s : DState) : DState :=
  applySimpleEvents inst handlers formType
    FormEventTypes.OnPreProcessStatusChange
    RegOp.addOnPreProcessStatusChange s

/-- `applyOnPreStageChangeEvents` (line 294). -/
def applyOnPreStageChangeEvents (inst : Instance)
    (handlers : List FormEventDetails) (formType : FormType)
    (s : DState) : DState :=
  applySimpleEvents inst handlers formType FormEventTypes.OnPreStageChange
    RegOp.addOnPreStageChange s

/-- `applyOnStageChangeEvents` (line 297). -/
def applyOnStageChangeEvents (inst : Instance)
    (handlers : List FormEventDetails) (formType : FormType)
    (s : DState) : DState :=
  applySimpleEvents inst handlers formType FormEventTypes.OnStageChange
    RegOp.addOnStageChange s

/-- `applyOnStageSelectedEvents` (line 300). -/
def applyOnStageSelectedEvents (inst : Instance)
    (handlers : List FormEventDetails) (formType : FormType)
    (s : DState) : DState :=
  applySimpleEvents inst handlers formType FormEventTypes.OnStageSelected
    RegOp.addOnStageSelected s

/-- `applyOnOutputChangeEvents` (lines 307-315), verbatim from the source:
the filtered event type is `FormEventTypes.OnReadyStateComplete` while the
registration entry point is `addOnOutputChange` over standard controls. -/
def applyOnOutputChangeEvents (inst : Instance)
    (handlers : List FormEventDetails) (fc : FormContext)
    (formType : FormType) (s : DState) : DState :=
  applyComponentEvents inst handlers fc formType
    FormEventTypes.OnReadyStateComplete getControl isStandardControl
    (fun it => it.name) (registerBatch RegOp.addOnOutputChange) s

/-- `applyOnResultOpenedEvents` (lines 320-328). -/
def applyOnResultOpenedEvents (inst : Instance)
    (handlers : List FormEventDetails) (fc : FormContext)
    (formType : FormType) (s : DState) : DState :=
  applyComponentEvents inst handlers fc formType FormEventTypes.OnResultOpened
    getControl isKbSearchControl (fun it => it.name)
    (registerBatch RegOp.addOnResultOpened) s

/-- `applyOnSelectionEvents` (lines 329-337). -/
def applyOnSelectionEvents (inst : Instance)
    (handlers : List FormEventDetails) (fc : FormContext)
    (formType : FormType) (s : DState) : DState :=
  applyComponentEvents inst handlers fc formType FormEventTypes.OnSelection
    getControl isKbSearchControl (fun it => it.name)
    (registerBatch RegOp.addOnSelection) s

/-- `applyPostSearchEvents` (lines 338-346). -/
def applyPostSearchEvents (inst : Instance)
    (handlers : List FormEventDetails) (fc : FormContext)
    (formType : FormType) (s : DState) : DState :=
  applyComponentEvents inst handlers fc formType FormEventTypes.PostSearch
    getControl isKbSearchControl (fun it => it.name)
    (registerBatch RegOp.addOnPostSearch) s

/-- The per-kind dispatch chain of `FormEventDispatcher.apply` after the
registry read (lines 33-70), in source order, ending with the flush. -/
def applyAll (inst : Instance) (formEvents : List FormEventDetails)
    (fc : FormContext) (formType : FormType) (s : DState) : DState :=
  let s := validateHandlers inst formEvents s
  let s := applyOnDataLoadEvents inst formEvents formType s
  let s := applyOnLoadEvents inst formEvents formType s
  let s := applyLoadedEvents inst formEvents formType s
  let s := applyOnSaveEvents inst formEvents formType s
  let s := applyOnPostSaveEvents inst formEvents formType s
  let s := applyOnTabStateChangeEvents inst formEvents fc formType s
  let s := applyOnTabExpandEvents inst formEvents fc formType s
  let s := applyOnTabCollapseEvents inst formEvents fc formType s
  let s := applyOnChangeEvents inst formEvents fc formType s
  let s := applyOnLookupTagClickEvents inst formEvents fc formType s
  let s := applyPreSearchEvents inst formEvents fc formType s
  let s := applySubGridOnLoadEvents inst formEvents fc formType s
  let s := applySubGridOnRecordSelectEvents inst formEvents fc formType s
  let s := applyOnReadyStateCompleteEvents inst formEvents fc formType s
  let s := applyOnProcessStatusChangeEvents inst formEvents formType s
  let s := applyOnPreProcessStatusChangeEvents inst formEvents formType s
  let s := applyOnPreStageChangeEvents inst formEvents formType s
  let s := applyOnStageChangeEvents inst formEvents formType s
  let s := applyOnStageSelectedEvents inst formEvents formType s
  let s := applyOnOutputChangeEvents inst formEvents fc formType s
  let s := applyOnResultOpenedEvents inst formEvents fc formType s
  let s := applyOnSelectionEvents inst formEvents fc formType s
  let s := applyPostSearchEvents inst formEvents fc formType s
  flushGroupedWarnings s

/-- `FormEventDispatcher.apply` (lines 31-71): read the class's bindings
from the registry, validate, run every per-kind applier, flush. -/
def dispatcherApply (reg : Registry) (c : ClassId) (inst : Instance)
    (fc : FormContext) (formType : FormType) (s : DState) : DState :=
  applyAll inst (getFormEvents reg c) fc formType s

/-! ## Registry invariants -/

/-- A detail's component-name set, when present, has no duplicates. -/
def detailInvB (d : EventDetail) : Bool :=
  match d.componentNames with
  | some ns => decide ns.Nodup
  | none => true

/-- A method binding has at most one event per kind and duplicate-free
component-name sets. -/
def bindingInvB (fe : FormEventDetails) : Bool :=
  decide (fe.events.map (fun e => e.type)).Nodup && fe.events.all detailInvB

/-- A class's binding list has at most one binding per method name, each
satisfying the per-binding invariant. -/
def classInvB (l : List FormEventDetails) : Bool :=
  decide (l.map (fun fe => fe.functionName)).Nodup && l.all bindingInvB

/-- The registry has at most one entry per class, each satisfying the
per-class invariant. -/
def regInvB (reg : Registry) : Bool :=
  decide (reg.map Prod.fst).Nodup && reg.all (fun p => classInvB p.2)

/-- One `upsertFunctionEvent` call at the registry level. -/
structure RCall where
  classId : ClassId
  functionName : String
  detail : Option EventDetail
  formTypes : Option (List FormType)
  deriving DecidableEq, Repr

/-- A registry-level call's supplied name list has no duplicates. -/
def rcallInvB (cl : RCall) : Bool :=
  match cl.detail with
  | some d => detailInvB d
  | none => true

/-- Perform one registry-level upsert call. -/
def applyRCall (reg : Registry) (cl : RCall) : Registry :=
  upsertFunctionEvent reg cl.classId cl.functionName cl.detail cl.formTypes

/-- A one-method handler list declaring a single component event of the
given kind over the given names (used to state per-kind dispatch
behavior). -/
def singleComponentBinding (t : FormEventTypes) (ns : List String)
    (fn : String) : List FormEventDetails :=
  [{ functionName := fn, formTypes := none,
     events := [{ type := t, componentNames := some ns }] }]

/-! ## Theorems -/

theorem getFormEvents_set (reg : Registry) (c : ClassId)
    (l : List FormEventDetails) :
    getFormEvents (setFormEvents reg c l) c = l := by
  induction reg with
  | nil => simp [getFormEvents, setFormEvents, List.find?]
  | cons p rest ih =>
      by_cases h : p.1 == c
      · simp [getFormEvents, setFormEvents, h, List.find?]
      · simp only [setFormEvents]
        rw [if_neg h]
        simpa [getFormEvents, List.find?, h] using ih

/-- C1: `applyOnOutputChangeEvents` does not register `OnOutputChange`
bindings through `addOnOutputChange`: on a form containing the standard
control the binding requests, an `OnOutputChange` binding produces no
effect at all, while an `OnReadyStateComplete` binding on the same
control is the one registered through `addOnOutputChange` (a binding of a
different kind goes through the OnOutputChange batch entry point). -/
theorem onOutputChange_kind_mismatch :
    (applyOnOutputChangeEvents { className := "H", callables := ["m"] }
      [{ functionName := "m", formTypes := none,
         events := [{ type := FormEventTypes.OnOutputChange,
                      componentNames := some ["c"] }] }]
      { attributes := [], tabs := [],
        controls := [{ name := "c", cls := CompClass.standardC,
                       displayState := DisplayState.expanded }] }
      FormType.Update DState.empty) = DState.empty
  ∧ (applyOnOutputChangeEvents { className := "H", callables := ["m"] }
      [{ functionName := "m", formTypes := none,
         events := [{ type := FormEventTypes.OnReadyStateComplete,
                      componentNames := some ["c"] }] }]
      { attributes := [], tabs := [],
        controls := [{ name := "c", cls := CompClass.standardC,
                       displayState := DisplayState.expanded }] }
      FormType.Update DState.empty).registrations
    = [{ op := RegOp.addOnOutputChange, itemNames := ["c"],
         functionName := "m" }] := by
  exact ⟨rfl, rfl⟩

/-- C3: the synthesized tab listener invokes the user callback exactly
when the originating tab's display state equals the kind-specific target:
"expanded" for tab-expand, "collapsed" for tab-collapse; with no event
source the callback is not invoked; and the expand/collapse appliers wire
exactly those targets onto the generic tab-state-change subscription. -/
theorem tab_expand_collapse_gating :
    (∀ tab : Component,
      tabStateChangeWrappedListener DisplayState.expanded
        { eventSource := some tab } = true
      ↔ tab.displayState = DisplayState.expanded)
  ∧ (∀ tab : Component,
      tabStateChangeWrappedListener DisplayState.collapsed
        { eventSource := some tab } = true
      ↔ tab.displayState = DisplayState.collapsed)
  ∧ (∀ st : DisplayState,
      tabStateChangeWrappedListener st { eventSource := none } = false)
  ∧ (∀ inst hs fc ft s,
      applyOnTabExpandEvents inst hs fc ft s
      = applyOnTabSpecificStateEvents inst hs fc ft
          FormEventTypes.OnTabExpand DisplayState.expanded s)
  ∧ (∀ inst hs fc ft s,
      applyOnTabCollapseEvents inst hs fc ft s
      = applyOnTabSpecificStateEvents inst hs fc ft
          FormEventTypes.OnTabCollapse DisplayState.collapsed s) := by
  refine ⟨?_, ?_, ?_, ?_, ?_⟩
  · intro tab
    simp [tabStateChangeWrappedListener]
  · intro tab
    simp [tabStateChangeWrappedListener]
  · intro st
    rfl
  · intro inst hs fc ft s
    rfl
  · intro inst hs fc ft s
    rfl

theorem getFormEvents_of_find?_none (reg : Registry) (c : ClassId)
    (hfresh : reg.find? (fun p => p.1 == c) = none) :
    getFormEvents reg c = [] := by
  simp [getFormEvents, hfresh]

/-- C10: a method binding whose events collection is empty — such as the
one a bare `upsertFunctionEvent(ctor, fn)` call creates — is reported by
`validateHandlers`, and all empty-events method names of the class are
joined into one aggregated warning message. -/
theorem empty_events_validation (inst : Instance) (fn1 fn2 g : String)
    (reg : Registry) (c : ClassId) (s : DState)
    (hfresh : reg.find? (fun p => p.1 == c) = none) :
    getFormEvents (upsertFunctionEvent reg c fn1 none none) c
      = [{ functionName := fn1, formTypes := none, events := [] }]
  ∧ validateHandlers inst
      [{ functionName := fn1, formTypes := none, events := [] },
       { functionName := g, formTypes := none,
         events := [{ type := FormEventTypes.OnLoad, componentNames := none }] },
       { functionName := fn2, formTypes := none, events := [] }] s
    = logGroupedWarning (validateMsg inst.className [fn1, fn2]) s := by
  constructor
  · rw [upsertFunctionEvent, getFormEvents_of_find?_none reg c hfresh,
      getFormEvents_set]
    rfl
  · rfl

/-- C10 witness. -/
theorem empty_events_validation_witness :
    getFormEvents (upsertFunctionEvent [] 0 "a" none none) 0
      = [{ functionName := "a", formTypes := none, events := [] }]
  ∧ validateHandlers { className := "H", callables := [] }
      [{ functionName := "a", formTypes := none, events := [] },
       { functionName := "g", formTypes := none,
         events := [{ type := FormEventTypes.OnLoad, componentNames := none }] },
       { functionName := "b", formTypes := none, events := [] }] DState.empty
    = logGroupedWarning
        (validateMsg "H" ["a", "b"]) DState.empty :=
  empty_events_validation { className := "H", callables := [] }
    "a" "b" "g" [] 0 DState.empty rfl

/-- C8: a class with no registry entry yields an empty binding collection
from `getFormEvents`, and `FormEventDispatcher.apply` on such a class
performs no registration, queues no warning and emits nothing. -/
theorem no_bindings_apply_noop (reg : Registry) (c : ClassId)
    (inst : Instance) (fc : FormContext) (ft : FormType)
    (hfresh : reg.find? (fun p => p.1 == c) = none) :
    getFormEvents reg c = []
  ∧ dispatcherApply reg c inst fc ft DState.empty = DState.empty := by
  have hg : getFormEvents reg c = [] := getFormEvents_of_find?_none reg c hfresh
  refine ⟨hg, ?_⟩
  rw [dispatcherApply, hg]
  rfl

/-- C8 witness. -/
theorem no_bindings_apply_noop_witness :
    getFormEvents [] 0 = []
  ∧ dispatcherApply [] 0 { className := "H", callables := [] }
      { attributes := [], tabs := [], controls := [] } FormType.Create
      DState.empty = DState.empty :=
  no_bindings_apply_noop [] 0 { className := "H", callables := [] }
    { attributes := [], tabs := [], controls := [] } FormType.Create rfl

/-- C9: a binding whose method name is not callable on the instance is
skipped by both generic dispatchers: no registration, no warning, no
failure — processing continues with the remaining bindings. -/
theorem missing_method_skipped (inst : Instance) (h : FormEventDetails)
    (rest : List FormEventDetails) (ft : FormType) (t : FormEventTypes)
    (op : RegOp) (fc : FormContext)
    (getItems : FormContext → List String → List Component)
    (checker : Component → Bool) (getName : Component → String)
    (register : FormContext → List Component → String → DState → DState)
    (s : DState)
    (hcall : inst.callables.contains h.functionName = false) :
    applySimpleEvents inst (h :: rest) ft t op s
      = applySimpleEvents inst rest ft t op s
  ∧ applyComponentEvents inst (h :: rest) fc ft t getItems checker getName
      register s
    = applyComponentEvents inst rest fc ft t getItems checker getName
      register s := by
  have hmem : h.functionName ∉ inst.callables := by simpa using hcall
  constructor
  · simp only [applySimpleEvents, List.filter_cons]
    by_cases hev : (h.events.find? (fun e => e.type == t)).isSome = true
    · rw [if_pos hev, List.foldl_cons]
      by_cases hauth : isFormTypeAuthorized h.formTypes ft = true
      · simp [hauth, hmem]
      · simp [Bool.eq_false_iff.mpr hauth]
    · rw [if_neg hev]
  · simp only [applyComponentEvents, List.filter_cons]
    by_cases hev : (h.events.find? (fun e => e.type == t)).isSome = true
    · rw [if_pos hev, List.foldl_cons]
      by_cases hauth : isFormTypeAuthorized h.formTypes ft = true
      · simp [hauth, hmem]
      · simp [Bool.eq_false_iff.mpr hauth]
    · rw [if_neg hev]

/-- C9 witness. -/
theorem missing_method_skipped_witness :
    applySimpleEvents { className := "H", callables := [] }
      [{ functionName := "m", formTypes := none,
         events := [{ type := FormEventTypes.OnLoad, componentNames := none }] }]
      FormType.Create FormEventTypes.OnLoad RegOp.addOnLoad DState.empty
      = applySimpleEvents { className := "H", callables := [] } []
          FormType.Create FormEventTypes.OnLoad RegOp.addOnLoad DState.empty
  ∧ applyComponentEvents { className := "H", callables := [] }
      [{ functionName := "m", formTypes := none,
         events := [{ type := FormEventTypes.OnLoad, componentNames := none }] }]
      { attributes := [], tabs := [], controls := [] } FormType.Create
      FormEventTypes.OnLoad getAttribute isAttribute
      (fun it => it.name) (registerBatch RegOp.addOnChange) DState.empty
    = applyComponentEvents { className := "H", callables := [] } []
        { attributes := [], tabs := [], controls := [] } FormType.Create
        FormEventTypes.OnLoad getAttribute isAttribute
        (fun it => it.name) (registerBatch RegOp.addOnChange) DState.empty :=
  missing_method_skipped { className := "H", callables := [] }
    { functionName := "m", formTypes := none,
      events := [{ type := FormEventTypes.OnLoad, componentNames := none }] }
    [] FormType.Create FormEventTypes.OnLoad RegOp.addOnLoad
    { attributes := [], tabs := [], controls := [] } getAttribute isAttribute
    (fun it => it.name) (registerBatch RegOp.addOnChange) DState.empty rfl

/-- C5: the form-mode filter is an allow-list — with a set, non-empty
filter the dispatcher registers the method's listener exactly when the
current form type is in the filter; with an absent or empty filter the
method is always processed. -/
theorem mode_filter_allow_list (inst : Instance) (fn : String)
    (l : List FormType) (t : FormEventTypes) (op : RegOp) (ft : FormType)
    (s : DState) (hcall : inst.callables.contains fn = true) (hne : l ≠ []) :
    (applySimpleEvents inst
      [{ functionName := fn, formTypes := some l,
         events := [{ type := t, componentNames := none }] }] ft t op s
      = if l.contains ft then pushRegistration s op [] fn else s)
  ∧ (applySimpleEvents inst
      [{ functionName := fn, formTypes := none,
         events := [{ type := t, componentNames := none }] }] ft t op s
      = pushRegistration s op [] fn)
  ∧ (applySimpleEvents inst
      [{ functionName := fn, formTypes := some [],
         events := [{ type := t, componentNames := none }] }] ft t op s
      = pushRegistration s op [] fn) := by
  have hempty : l.isEmpty = false := by
    cases l with
    | nil => exact absurd rfl hne
    | cons a as => rfl
  have hmem : fn ∈ inst.callables := by simpa using hcall
  refine ⟨?_, ?_, ?_⟩
  · by_cases hc : ft ∈ l
    · simp [applySimpleEvents, isFormTypeAuthorized, hmem, hc, hempty,
        List.filter, List.find?]
    · simp [applySimpleEvents, isFormTypeAuthorized, hmem, hc, hempty,
        List.filter, List.find?]
  · simp [applySimpleEvents, isFormTypeAuthorized, hmem, List.filter,
      List.find?]
  · simp [applySimpleEvents, isFormTypeAuthorized, hmem, List.filter,
      List.find?]

/-- C5 witness: with filter {Create, Update}, dispatch under ReadOnly
registers nothing and dispatch under Create registers the listener. -/
theorem mode_filter_allow_list_witness :
    (applySimpleEvents { className := "H", callables := ["m"] }
      [{ functionName := "m",
         formTypes := some [FormType.Create, FormType.Update],
         events := [{ type := FormEventTypes.OnSave, componentNames := none }] }]
      FormType.ReadOnly FormEventTypes.OnSave RegOp.addOnSave DState.empty
      = if [FormType.Create, FormType.Update].contains FormType.ReadOnly then
          pushRegistration DState.empty RegOp.addOnSave [] "m"
        else DState.empty)
  ∧ (applySimpleEvents { className := "H", callables := ["m"] }
      [{ functionName := "m",
         formTypes := some [FormType.Create, FormType.Update],
         events := [{ type := FormEventTypes.OnSave, componentNames := none }] }]
      FormType.Create FormEventTypes.OnSave RegOp.addOnSave DState.empty
      = if [FormType.Create, FormType.Update].contains FormType.Create then
          pushRegistration DState.empty RegOp.addOnSave [] "m"
        else DState.empty) :=
  ⟨(mode_filter_allow_list { className := "H", callables := ["m"] } "m"
      [FormType.Create, FormType.Update] FormEventTypes.OnSave
      RegOp.addOnSave FormType.ReadOnly DState.empty rfl
      (by decide)).1,
   (mode_filter_allow_list { className := "H", callables := ["m"] } "m"
      [FormType.Create, FormType.Update] FormEventTypes.OnSave
      RegOp.addOnSave FormType.Create DState.empty rfl
      (by decide)).1⟩

/-- C4 counterexample: the claim fails for two component kinds. An
`OnOutputChange` binding whose names {a, b, c} resolve only partially
("a" is a live standard control) produces, under the full dispatch, no
registration and no diagnostic at all (the claim demands a registration
against "a" and exactly one diagnostic); and an `OnReadyStateComplete`
binding whose single name resolves to a live iframe control is processed
a second time by the OnOutputChange applier, registering once more with
no components and emitting a diagnostic although every requested name
resolved (the claim demands no diagnostic). -/
theorem unfound_aggregation_counterexample :
    dispatcherApply
      [(0, singleComponentBinding FormEventTypes.OnOutputChange
            ["a", "b", "c"] "m")] 0
      { className := "H", callables := ["m"] }
      { attributes := [], tabs := [],
        controls := [{ name := "a", cls := CompClass.standardC,
                       displayState := DisplayState.expanded }] }
      FormType.Update DState.empty = DState.empty
  ∧ (dispatcherApply
      [(0, singleComponentBinding FormEventTypes.OnReadyStateComplete
            ["f"] "m")] 0
      { className := "H", callables := ["m"] }
      { attributes := [], tabs := [],
        controls := [{ name := "f", cls := CompClass.iframeC,
                       displayState := DisplayState.expanded }] }
      FormType.Update DState.empty).registrations
    = [{ op := RegOp.addOnReadyStateComplete, itemNames := ["f"],
         functionName := "m" },
       { op := RegOp.addOnOutputChange, itemNames := [],
         functionName := "m" }]
  ∧ (dispatcherApply
      [(0, singleComponentBinding FormEventTypes.OnReadyStateComplete
            ["f"] "m")] 0
      { className := "H", callables := ["m"] }
      { attributes := [], tabs := [],
        controls := [{ name := "f", cls := CompClass.iframeC,
                       displayState := DisplayState.expanded }] }
      FormType.Update DState.empty).emitted
    = [" " ++ unfoundMsg "H" ["f"] FormEventTypes.OnReadyStateComplete
          "m" FormType.Update] :=
  ⟨rfl, rfl, rfl⟩

theorem getFormEvents_singleton (c : ClassId)
    (l : List FormEventDetails) : getFormEvents [(c, l)] c = l := by
  simp [getFormEvents, List.find?_cons]

theorem validateHandlers_single (inst : Instance) (t : FormEventTypes)
    (ns : List String) (fn : String) (s : DState) :
    validateHandlers inst (singleComponentBinding t ns fn) s = s := by
  simp [validateHandlers, singleComponentBinding]

theorem applySimpleEvents_single_skip (inst : Instance)
    (t2 : FormEventTypes) (ns : List String) (fn : String) (ft : FormType)
    (t : FormEventTypes) (op : RegOp) (s : DState)
    (hne : (t2 == t) = false) :
    applySimpleEvents inst (singleComponentBinding t2 ns fn) ft t op s
      = s := by
  simp [applySimpleEvents, singleComponentBinding, List.filter,
    List.find?, hne]

theorem applyComponentEvents_single_skip (inst : Instance)
    (t2 : FormEventTypes) (ns : List String) (fn : String)
    (fc : FormContext) (ft : FormType) (t : FormEventTypes)
    (getItems : FormContext → List String → List Component)
    (checker : Component → Bool) (getItemName : Component → String)
    (register : FormContext → List Component → String → DState → DState)
    (s : DState) (hne : (t2 == t) = false) :
    applyComponentEvents inst (singleComponentBinding t2 ns fn) fc ft t
      getItems checker getItemName register s = s := by
  simp [applyComponentEvents, singleComponentBinding, List.filter,
    List.find?, hne]

set_option maxHeartbeats 1000000 in
/-- C4 (amended): for every component-kind binding of a kind the
dispatcher processes in exactly one kind-matching pass — every component
kind except OnOutputChange (never processed, Dispatcher.ts:309) and
OnReadyStateComplete (processed twice) — dispatch registers the callback
only against the resolved, type-matching components and queues exactly
one aggregated diagnostic listing all unresolved names together with the
method name, the event kind and the current form mode, precisely when
some requested name does not resolve; if every name resolves, no
diagnostic is queued. Stated as: the generic component-event dispatch
has that shape for any accessor, type predicate and registration
operation, and for each of the eleven unaffected kinds the full
dispatcher run on a binding of that kind reduces to exactly its own
kind-matching pass (plus the final flush). -/
theorem unfound_aggregation_amended (inst : Instance) (fn : String)
    (ns : List String) (fc : FormContext) (ft : FormType) (s : DState)
    (hcall : inst.callables.contains fn = true) :
    (∀ (eventType : FormEventTypes)
       (getItems : FormContext → List String → List Component)
       (checker : Component → Bool)
       (register : FormContext → List Component → String → DState → DState),
       applyComponentEvents inst (singleComponentBinding eventType ns fn)
         fc ft eventType getItems checker (fun it => it.name) register s
       = (let items := (getItems fc ns).filter checker
          let found := items.map (fun it => it.name)
          let unfound := ns.filter (fun n => !found.contains n)
          let s1 := register fc items fn s
          if unfound.length > 0 then
            logGroupedWarning
              (unfoundMsg inst.className unfound eventType fn ft) s1
          else s1))
  ∧ (dispatcherApply
        [(0, singleComponentBinding FormEventTypes.OnTabStateChange ns fn)]
        0 inst fc ft s
      = flushGroupedWarnings (applyOnTabStateChangeEvents inst
          (singleComponentBinding FormEventTypes.OnTabStateChange ns fn)
          fc ft s))
  ∧ (dispatcherApply
        [(0, singleComponentBinding FormEventTypes.OnTabExpand ns fn)]
        0 inst fc ft s
      = flushGroupedWarnings (applyOnTabExpandEvents inst
          (singleComponentBinding FormEventTypes.OnTabExpand ns fn)
          fc ft s))
  ∧ (dispatcherApply
        [(0, singleComponentBinding FormEventTypes.OnTabCollapse ns fn)]
        0 inst fc ft s
      = flushGroupedWarnings (applyOnTabCollapseEvents inst
          (singleComponentBinding FormEventTypes.OnTabCollapse ns fn)
          fc ft s))
  ∧ (dispatcherApply
        [(0, singleComponentBinding FormEventTypes.OnChange ns fn)]
        0 inst fc ft s
      = flushGroupedWarnings (applyOnChangeEvents inst
          (singleComponentBinding FormEventTypes.OnChange ns fn) fc ft s))
  ∧ (dispatcherApply
        [(0, singleComponentBinding FormEventTypes.OnLookupTagClick ns fn)]
        0 inst fc ft s
      = flushGroupedWarnings (applyOnLookupTagClickEvents inst
          (singleComponentBinding FormEventTypes.OnLookupTagClick ns fn)
          fc ft s))
  ∧ (dispatcherApply
        [(0, singleComponentBinding FormEventTypes.PreSearch ns fn)]
        0 inst fc ft s
      = flushGroupedWarnings (applyPreSearchEvents inst
          (singleComponentBinding FormEventTypes.PreSearch ns fn) fc ft s))
  ∧ (dispatcherApply
        [(0, singleComponentBinding FormEventTypes.SubGridOnLoad ns fn)]
        0 inst fc ft s
      = flushGroupedWarnings (applySubGridOnLoadEvents inst
          (singleComponentBinding FormEventTypes.SubGridOnLoad ns fn)
          fc ft s))
  ∧ (dispatcherApply
        [(0, singleComponentBinding FormEventTypes.SubGridOnRecordSelect
              ns fn)] 0 inst fc ft s
      = flushGroupedWarnings (applySubGridOnRecordSelectEvents inst
          (singleComponentBinding FormEventTypes.SubGridOnRecordSelect
            ns fn) fc ft s))
  ∧ (dispatcherApply
        [(0, singleComponentBinding FormEventTypes.OnResultOpened ns fn)]
        0 inst fc ft s
      = flushGroupedWarnings (applyOnResultOpenedEvents inst
          (singleComponentBinding FormEventTypes.OnResultOpened ns fn)
          fc ft s))
  ∧ (dispatcherApply
        [(0, singleComponentBinding FormEventTypes.OnSelection ns fn)]
        0 inst fc ft s
      = flushGroupedWarnings (applyOnSelectionEvents inst
          (singleComponentBinding FormEventTypes.OnSelection ns fn)
          fc ft s))
  ∧ (dispatcherApply
        [(0, singleComponentBinding FormEventTypes.PostSearch ns fn)]
        0 inst fc ft s
      = flushGroupedWarnings (applyPostSearchEvents inst
          (singleComponentBinding FormEventTypes.PostSearch ns fn)
          fc ft s)) := by
  have hmem : fn ∈ inst.callables := by simpa using hcall
  refine ⟨?_, ?_, ?_, ?_, ?_, ?_, ?_, ?_, ?_, ?_, ?_, ?_⟩
  · intro eventType getItems checker register
    simp [singleComponentBinding, applyComponentEvents,
      isFormTypeAuthorized, hmem, isMatchingComponentEvent,
      isComponentEventDetail, List.filter, List.find?]
  all_goals
    simp (disch := decide) only [dispatcherApply, applyAll,
      getFormEvents_singleton, validateHandlers_single,
      applyOnDataLoadEvents, applyOnLoadEvents, applyLoadedEvents,
      applyOnSaveEvents, applyOnPostSaveEvents,
      applyOnTabStateChangeEvents, applyOnTabExpandEvents,
      applyOnTabCollapseEvents, applyOnTabSpecificStateEvents,
      applyOnChangeEvents, applyOnLookupTagClickEvents,
      applyPreSearchEvents, applySubGridOnLoadEvents,
      applySubGridOnRecordSelectEvents, applyOnReadyStateCompleteEvents,
      applyOnProcessStatusChangeEvents,
      applyOnPreProcessStatusChangeEvents, applyOnPreStageChangeEvents,
      applyOnStageChangeEvents, applyOnStageSelectedEvents,
      applyOnOutputChangeEvents, applyOnResultOpenedEvents,
      applyOnSelectionEvents, applyPostSearchEvents,
      applySimpleEvents_single_skip, applyComponentEvents_single_skip]

/-- C4 witness: of requested names {a, b, c} only "a" resolves under the
attribute accessor; the generic dispatch registers against "a" alone and
queues one aggregated warning, and the full dispatcher run on the
OnChange binding is exactly the OnChange pass plus flush. -/
theorem unfound_aggregation_amended_witness :
    (applyComponentEvents { className := "H", callables := ["m"] }
      (singleComponentBinding FormEventTypes.OnChange ["a", "b", "c"] "m")
      { attributes := [{ name := "a", cls := CompClass.attributeC,
                         displayState := DisplayState.expanded }],
        tabs := [], controls := [] } FormType.Update
      FormEventTypes.OnChange getAttribute isAttribute
      (fun it => it.name) (registerBatch RegOp.addOnChange) DState.empty
    = (let items := (getAttribute
         { attributes := [{ name := "a", cls := CompClass.attributeC,
                            displayState := DisplayState.expanded }],
           tabs := [], controls := [] } ["a", "b", "c"]).filter isAttribute
       let found := items.map (fun it => it.name)
       let unfound := ["a", "b", "c"].filter (fun n => !found.contains n)
       let s1 := registerBatch RegOp.addOnChange
         { attributes := [{ name := "a", cls := CompClass.attributeC,
                            displayState := DisplayState.expanded }],
           tabs := [], controls := [] } items "m" DState.empty
       if unfound.length > 0 then
         logGroupedWarning
           (unfoundMsg "H" unfound FormEventTypes.OnChange "m"
             FormType.Update) s1
       else s1))
  ∧ (dispatcherApply
      [(0, singleComponentBinding FormEventTypes.OnChange
            ["a", "b", "c"] "m")] 0
      { className := "H", callables := ["m"] }
      { attributes := [{ name := "a", cls := CompClass.attributeC,
                         displayState := DisplayState.expanded }],
        tabs := [], controls := [] } FormType.Update DState.empty
    = flushGroupedWarnings (applyOnChangeEvents
        { className := "H", callables := ["m"] }
        (singleComponentBinding FormEventTypes.OnChange ["a", "b", "c"] "m")
        { attributes := [{ name := "a", cls := CompClass.attributeC,
                           displayState := DisplayState.expanded }],
          tabs := [], controls := [] } FormType.Update DState.empty)) :=
  ⟨(unfound_aggregation_amended { className := "H", callables := ["m"] }
      "m" ["a", "b", "c"]
      { attributes := [{ name := "a", cls := CompClass.attributeC,
                         displayState := DisplayState.expanded }],
        tabs := [], controls := [] } FormType.Update DState.empty rfl).1
      FormEventTypes.OnChange getAttribute isAttribute
      (registerBatch RegOp.addOnChange),
   (unfound_aggregation_amended { className := "H", callables := ["m"] }
      "m" ["a", "b", "c"]
      { attributes := [{ name := "a", cls := CompClass.attributeC,
                         displayState := DisplayState.expanded }],
        tabs := [], controls := [] } FormType.Update DState.empty
      rfl).2.2.2.2.1⟩

theorem countIn_bumpCount_self (l : List (String × Nat)) (msg : String) :
    countIn (bumpCount l msg) msg = countIn l msg + 1 := by
  induction l with
  | nil => simp [bumpCount, countIn, List.find?]
  | cons p rest ih =>
      by_cases h : p.1 == msg
      · simp [bumpCount, h, countIn, List.find?]
      · simp only [bumpCount]
        rw [if_neg h]
        simpa [countIn, List.find?, h] using ih

theorem countIn_bumpCount_other (l : List (String × Nat)) (msg m : String)
    (hne : m ≠ msg) :
    countIn (bumpCount l msg) m = countIn l m := by
  have hb : (msg == m) = false := by
    simp [hne.symm]
  induction l with
  | nil => simp [bumpCount, countIn, List.find?, hb]
  | cons p rest ih =>
      by_cases h : p.1 == msg
      · have hp : p.1 = msg := by simpa using h
        have hpm : (p.1 == m) = false := by
          simp [hp, hb]
        simp [bumpCount, h, countIn, List.find?, hpm]
      · simp only [bumpCount]
        rw [if_neg h]
        by_cases hpm : p.1 == m
        · simp [countIn, List.find?, hpm]
        · simpa [countIn, List.find?, hpm] using ih

theorem bumpCount_fresh (l : List (String × Nat)) (msg : String)
    (hfresh : l.find? (fun q => q.1 == msg) = none) :
    bumpCount l msg = l ++ [(msg, 1)] := by
  induction l with
  | nil => rfl
  | cons p rest ih =>
      by_cases h : p.1 == msg
      · exfalso
        have hsome : List.find? (fun q => q.1 == msg) (p :: rest) = some p := by
          rw [List.find?_cons]
          simp [h]
        rw [hfresh] at hsome
        cases hsome
      · have hrest : List.find? (fun q => q.1 == msg) rest = none := by
          rw [List.find?_cons] at hfresh
          simpa [h] using hfresh
        simp only [bumpCount]
        rw [if_neg h, ih hrest]
        rfl

theorem mem_keys_bumpCount (l : List (String × Nat)) (msg x : String)
    (hx : x ∈ (bumpCount l msg).map Prod.fst) :
    x ∈ l.map Prod.fst ∨ x = msg := by
  induction l with
  | nil =>
      refine Or.inr ?_
      rcases List.mem_singleton.mp (by simpa [bumpCount] using hx) with h
      exact h
  | cons p rest ih =>
      by_cases h : p.1 == msg
      · rw [show bumpCount (p :: rest) msg = (p.1, p.2 + 1) :: rest from by
          simp only [bumpCount]; rw [if_pos h]] at hx
        rw [List.map_cons] at hx
        rcases List.mem_cons.mp hx with h1 | h1
        · exact Or.inl (List.mem_cons.mpr (Or.inl h1))
        · exact Or.inl (List.mem_cons.mpr (Or.inr h1))
      · rw [show bumpCount (p :: rest) msg = p :: bumpCount rest msg from by
          simp only [bumpCount]; rw [if_neg h]] at hx
        rw [List.map_cons] at hx
        rcases List.mem_cons.mp hx with h1 | h1
        · exact Or.inl (List.mem_cons.mpr (Or.inl h1))
        · rcases ih h1 with h2 | h2
          · exact Or.inl (List.mem_cons.mpr (Or.inr h2))
          · exact Or.inr h2

theorem keys_nodup_bumpCount (l : List (String × Nat)) (msg : String)
    (hnd : (l.map Prod.fst).Nodup) :
    ((bumpCount l msg).map Prod.fst).Nodup := by
  induction l with
  | nil => simp [bumpCount]
  | cons p rest ih =>
      rw [List.map_cons, List.nodup_cons] at hnd
      by_cases h : p.1 == msg
      · rw [show bumpCount (p :: rest) msg = (p.1, p.2 + 1) :: rest from by
          simp only [bumpCount]; rw [if_pos h]]
        rw [List.map_cons, List.nodup_cons]
        exact ⟨hnd.1, hnd.2⟩
      · rw [show bumpCount (p :: rest) msg = p :: bumpCount rest msg from by
          simp only [bumpCount]; rw [if_neg h]]
        rw [List.map_cons, List.nodup_cons]
        refine ⟨?_, ih hnd.2⟩
        intro hmem
        rcases mem_keys_bumpCount rest msg p.1 hmem with h2 | h2
        · exact hnd.1 h2
        · exact absurd h2 (by simpa using h)

/-- C7: `logGroupedWarning` increments the counter of exactly the logged
message, creating the entry at the end of the insertion order on first
occurrence and keeping distinct keys distinct; `flushGroupedWarnings`
emits one line per counter entry in insertion order — marked with a
`(Nx)` occurrence prefix exactly when the count exceeds 1 — and clears
the counters, so a second flush emits nothing more. -/
theorem warning_aggregation (s : DState) (msg m : String) (k : Nat) :
    (countOf (logGroupedWarning msg s) msg = countOf s msg + 1)
  ∧ (m ≠ msg → countOf (logGroupedWarning msg s) m = countOf s m)
  ∧ (s.warningCounts.find? (fun p => p.1 == msg) = none →
      (logGroupedWarning msg s).warningCounts
        = s.warningCounts ++ [(msg, 1)])
  ∧ ((s.warningCounts.map Prod.fst).Nodup →
      ((logGroupedWarning msg s).warningCounts.map Prod.fst).Nodup)
  ∧ ((flushGroupedWarnings s).emitted
      = s.emitted ++ s.warningCounts.map flushLine)
  ∧ ((flushGroupedWarnings s).warningCounts = [])
  ∧ (k ≤ 1 → flushLine (m, k) = " " ++ m)
  ∧ (k > 1 → flushLine (m, k) = "(" ++ toString k ++ "x)" ++ " " ++ m)
  ∧ ((flushGroupedWarnings (flushGroupedWarnings s)).emitted
      = (flushGroupedWarnings s).emitted) := by
  refine ⟨?_, ?_, ?_, ?_, rfl, rfl, ?_, ?_, ?_⟩
  · exact countIn_bumpCount_self s.warningCounts msg
  · intro hne
    exact countIn_bumpCount_other s.warningCounts msg m hne
  · intro hfresh
    exact bumpCount_fresh s.warningCounts msg hfresh
  · intro hnd
    exact keys_nodup_bumpCount s.warningCounts msg hnd
  · intro hk
    have : ¬ k > 1 := by omega
    simp [flushLine, this]
  · intro hk
    simp [flushLine, hk]
  · simp [flushGroupedWarnings]

/-- C7 witness. -/
theorem warning_aggregation_witness :
    (countOf (logGroupedWarning "w"
        { warningCounts := [("w", 1)], registrations := [], emitted := [] })
      "w"
      = countOf { warningCounts := [("w", 1)], registrations := [],
                  emitted := [] } "w" + 1)
  ∧ (countOf (logGroupedWarning "w"
        { warningCounts := [("w", 1)], registrations := [], emitted := [] })
      "v"
      = countOf { warningCounts := [("w", 1)], registrations := [],
                  emitted := [] } "v")
  ∧ ((logGroupedWarning "v"
        { warningCounts := [("w", 1)], registrations := [], emitted := [] }
      ).warningCounts = [("w", 1)] ++ [("v", 1)])
  ∧ (flushLine ("v", 1) = " " ++ "v")
  ∧ (flushLine ("v", 2) = "(" ++ toString 2 ++ "x)" ++ " " ++ "v") :=
  ⟨(warning_aggregation
      { warningCounts := [("w", 1)], registrations := [], emitted := [] }
      "w" "v" 1).1,
   (warning_aggregation
      { warningCounts := [("w", 1)], registrations := [], emitted := [] }
      "w" "v" 1).2.1 (by decide),
   (warning_aggregation
      { warningCounts := [("w", 1)], registrations := [], emitted := [] }
      "v" "v" 1).2.2.1 (by decide),
   (warning_aggregation
      { warningCounts := [("w", 1)], registrations := [], emitted := [] }
      "w" "v" 1).2.2.2.2.2.2.1 (by decide),
   (warning_aggregation
      { warningCounts := [("w", 1)], registrations := [], emitted := [] }
      "w" "v" 2).2.2.2.2.2.2.2.1 (by decide)⟩

/-- C6 counterexample: a single upsert whose name list repeats "a" stores
the component-name list with the duplicate intact — the registry does not
deduplicate names repeated within one call's list. -/
theorem dup_names_counterexample :
    getFormEvents (upsertFunctionEvent [] 0 "m"
      (some { type := FormEventTypes.OnChange,
              componentNames := some ["a", "a"] }) none) 0
    = [{ functionName := "m", formTypes := none,
         events := [{ type := FormEventTypes.OnChange,
                      componentNames := some ["a", "a"] }] }]
  ∧ ¬ (["a", "a"].Nodup) :=
  ⟨rfl, by decide⟩

theorem mem_mergeUnique {α : Type} [BEq α] [LawfulBEq α] (a b : List α)
    (x : α) : x ∈ mergeUnique a b ↔ x ∈ a ∨ x ∈ b := by
  by_cases hxa : x ∈ a
  · simp [mergeUnique, hxa]
  · simp [mergeUnique, List.mem_filter, hxa]

theorem mergeUnique_nodup {α : Type} [BEq α] [LawfulBEq α]
    {a b : List α} (ha : a.Nodup) (hb : b.Nodup) :
    (mergeUnique a b).Nodup := by
  refine List.Nodup.append ha (List.Nodup.filter _ hb) ?_
  intro x hxa hxf
  have h2 := List.of_mem_filter hxf
  simp at h2
  exact h2 hxa

theorem mergeUnique_eq_of_subset {α : Type} [BEq α] [LawfulBEq α]
    {a b : List α} (h : ∀ x ∈ b, x ∈ a) : mergeUnique a b = a := by
  unfold mergeUnique
  have hnil : b.filter (fun i => !a.contains i) = [] := by
    rw [List.filter_eq_nil_iff]
    intro x hx
    simp [h x hx]
  rw [hnil, List.append_nil]

theorem mergeUnique_self {α : Type} [BEq α] [LawfulBEq α] (a : List α) :
    mergeUnique a a = a :=
  mergeUnique_eq_of_subset (fun _ hx => hx)

theorem mergeUnique_absorb {α : Type} [BEq α] [LawfulBEq α]
    (a b : List α) : mergeUnique (mergeUnique a b) b = mergeUnique a b :=
  mergeUnique_eq_of_subset (fun x hx => (mem_mergeUnique a b x).mpr (Or.inr hx))

theorem mergeEventDetail_type (e d : EventDetail) :
    (mergeEventDetail e d).type = e.type := by
  cases he : e.componentNames <;> cases hd : d.componentNames <;>
    simp [mergeEventDetail, he, hd]

theorem mergeEventDetail_self (d : EventDetail) :
    mergeEventDetail d d = d := by
  cases hd : d.componentNames with
  | none => simp [mergeEventDetail, hd]
  | some dn =>
      simp [mergeEventDetail, hd, mergeUnique_self]
      rw [← hd]

theorem mergeEventDetail_idem (e d : EventDetail) :
    mergeEventDetail (mergeEventDetail e d) d = mergeEventDetail e d := by
  cases he : e.componentNames <;> cases hd : d.componentNames <;>
    simp [mergeEventDetail, he, hd, mergeUnique_absorb]

theorem updateMatchingEvent_types (evs : List EventDetail)
    (d : EventDetail) :
    (updateMatchingEvent evs d).map (fun e => e.type)
      = evs.map (fun e => e.type) := by
  induction evs with
  | nil => rfl
  | cons e rest ih =>
      by_cases h : (e.type == d.type) = true
      · simp [updateMatchingEvent, h, mergeEventDetail_type]
      · simp [updateMatchingEvent, h, ih]

theorem mem_updateMatchingEvent {evs : List EventDetail}
    {d x : EventDetail} (hx : x ∈ updateMatchingEvent evs d) :
    x ∈ evs ∨ ∃ e ∈ evs, x = mergeEventDetail e d := by
  induction evs with
  | nil => simp [updateMatchingEvent] at hx
  | cons e rest ih =>
      by_cases h : (e.type == d.type) = true
      · rw [show updateMatchingEvent (e :: rest) d
            = mergeEventDetail e d :: rest from by
          simp [updateMatchingEvent, h]] at hx
        rcases List.mem_cons.mp hx with h1 | h1
        · exact Or.inr ⟨e, List.mem_cons_self e rest, h1⟩
        · exact Or.inl (List.mem_cons.mpr (Or.inr h1))
      · rw [show updateMatchingEvent (e :: rest) d
            = e :: updateMatchingEvent rest d from by
          simp [updateMatchingEvent, h]] at hx
        rcases List.mem_cons.mp hx with h1 | h1
        · exact Or.inl (List.mem_cons.mpr (Or.inl h1))
        · rcases ih h1 with h2 | ⟨e2, he2, hx2⟩
          · exact Or.inl (List.mem_cons.mpr (Or.inr h2))
          · exact Or.inr ⟨e2, List.mem_cons.mpr (Or.inr he2), hx2⟩

theorem applyEventDetail_types_any (evs : List EventDetail)
    (d : EventDetail)
    (h : evs.any (fun e => e.type == d.type) = true) :
    (applyEventDetail evs d).map (fun e => e.type)
      = evs.map (fun e => e.type) := by
  rw [applyEventDetail, if_pos h, updateMatchingEvent_types]

theorem applyEventDetail_types_fresh (evs : List EventDetail)
    (d : EventDetail)
    (h : evs.any (fun e => e.type == d.type) = false) :
    (applyEventDetail evs d).map (fun e => e.type)
      = evs.map (fun e => e.type) ++ [d.type] := by
  rw [applyEventDetail, if_neg (by simp [h]), List.map_append]
  rfl

theorem detailInvB_mergeEventDetail {e d : EventDetail}
    (he : detailInvB e = true) (hd : detailInvB d = true) :
    detailInvB (mergeEventDetail e d) = true := by
  cases hec : e.componentNames with
  | none => simpa [mergeEventDetail, hec] using he
  | some en =>
      cases hdc : d.componentNames with
      | none => simpa [mergeEventDetail, hec, hdc] using he
      | some dn =>
          have hen : en.Nodup := by simpa [detailInvB, hec] using he
          have hdn : dn.Nodup := by simpa [detailInvB, hdc] using hd
          simp [mergeEventDetail, hec, hdc, detailInvB]
          exact mergeUnique_nodup hen hdn

theorem bindingInvB_iff (fe : FormEventDetails) :
    bindingInvB fe = true
    ↔ (fe.events.map (fun e => e.type)).Nodup
      ∧ ∀ e ∈ fe.events, detailInvB e = true := by
  simp [bindingInvB, List.all_eq_true]

theorem bindingInvB_upsertBinding {fe : FormEventDetails}
    {d : Option EventDetail} {fts : Option (List FormType)}
    (hfe : bindingInvB fe = true)
    (hd : ∀ d0, d = some d0 → detailInvB d0 = true) :
    bindingInvB (upsertBinding fe d fts) = true := by
  rcases (bindingInvB_iff fe).mp hfe with ⟨htypes, hdetails⟩
  cases d with
  | none =>
      have hev : (upsertBinding fe none fts).events = fe.events := by
        cases fts <;> rfl
      refine (bindingInvB_iff _).mpr ?_
      rw [hev]
      exact ⟨htypes, hdetails⟩
  | some d0 =>
      have hev : (upsertBinding fe (some d0) fts).events
          = applyEventDetail fe.events d0 := by
        cases fts <;> rfl
      have hd0 : detailInvB d0 = true := hd d0 rfl
      refine (bindingInvB_iff _).mpr ?_
      rw [hev]
      by_cases hany : (fe.events.any (fun e => e.type == d0.type)) = true
      · constructor
        · rw [applyEventDetail_types_any fe.events d0 hany]
          exact htypes
        · intro x hx
          rw [applyEventDetail, if_pos hany] at hx
          rcases mem_updateMatchingEvent hx with h1 | ⟨e2, he2, hx2⟩
          · exact hdetails x h1
          · rw [hx2]
            exact detailInvB_mergeEventDetail (hdetails e2 he2) hd0
      · have hany2 : (fe.events.any (fun e => e.type == d0.type)) = false :=
          Bool.eq_false_iff.mpr hany
        constructor
        · rw [applyEventDetail_types_fresh fe.events d0 hany2]
          rw [List.nodup_append]
          refine ⟨htypes, List.nodup_singleton _, ?_⟩
          intro x hxmem hxd
          rcases List.mem_map.mp hxmem with ⟨e2, he2, hx2⟩
          have hne := (List.any_eq_false).mp hany2 e2 he2
          have hxd2 : x = d0.type := List.mem_singleton.mp hxd
          apply hne
          rw [hx2, hxd2]
          simp
        · intro x hx
          rw [applyEventDetail, if_neg (by simp [hany2])] at hx
          rcases List.mem_append.mp hx with h1 | h1
          · exact hdetails x h1
          · rw [List.mem_singleton] at h1
            rw [h1]
            exact hd0

theorem upsertBinding_functionName (fe : FormEventDetails)
    (d : Option EventDetail) (fts : Option (List FormType)) :
    (upsertBinding fe d fts).functionName = fe.functionName := by
  cases d <;> cases fts <;> rfl

theorem updateMatchingBinding_map_names (l : List FormEventDetails)
    (fn : String) (f : FormEventDetails → FormEventDetails)
    (hf : ∀ fe, (f fe).functionName = fe.functionName) :
    (updateMatchingBinding l fn f).map (fun fe => fe.functionName)
      = l.map (fun fe => fe.functionName) := by
  induction l with
  | nil => rfl
  | cons fe rest ih =>
      by_cases h : (fe.functionName == fn) = true
      · simp [updateMatchingBinding, h, hf]
      · simp [updateMatchingBinding, h, ih]

theorem mem_updateMatchingBinding {l : List FormEventDetails}
    {fn : String} {f : FormEventDetails → FormEventDetails}
    {x : FormEventDetails} (hx : x ∈ updateMatchingBinding l fn f) :
    x ∈ l ∨ ∃ fe ∈ l, x = f fe := by
  induction l with
  | nil => simp [updateMatchingBinding] at hx
  | cons fe rest ih =>
      by_cases h : (fe.functionName == fn) = true
      · rw [show updateMatchingBinding (fe :: rest) fn f
            = f fe :: rest from by simp [updateMatchingBinding, h]] at hx
        rcases List.mem_cons.mp hx with h1 | h1
        · exact Or.inr ⟨fe, List.mem_cons_self fe rest, h1⟩
        · exact Or.inl (List.mem_cons.mpr (Or.inr h1))
      · rw [show updateMatchingBinding (fe :: rest) fn f
            = fe :: updateMatchingBinding rest fn f from by
          simp [updateMatchingBinding, h]] at hx
        rcases List.mem_cons.mp hx with h1 | h1
        · exact Or.inl (List.mem_cons.mpr (Or.inl h1))
        · rcases ih h1 with h2 | ⟨fe2, hfe2, hx2⟩
          · exact Or.inl (List.mem_cons.mpr (Or.inr h2))
          · exact Or.inr ⟨fe2, List.mem_cons.mpr (Or.inr hfe2), hx2⟩

theorem classInvB_iff (l : List FormEventDetails) :
    classInvB l = true
    ↔ (l.map (fun fe => fe.functionName)).Nodup
      ∧ ∀ fe ∈ l, bindingInvB fe = true := by
  simp [classInvB, List.all_eq_true]

theorem classInvB_upsertList {l : List FormEventDetails} {fn : String}
    {d : Option EventDetail} {fts : Option (List FormType)}
    (hl : classInvB l = true)
    (hd : ∀ d0, d = some d0 → detailInvB d0 = true) :
    classInvB (upsertList l fn d fts) = true := by
  rcases (classInvB_iff l).mp hl with ⟨hnames, hbindings⟩
  by_cases hany : (l.any (fun fe => fe.functionName == fn)) = true
  · rw [upsertList, if_pos hany]
    refine (classInvB_iff _).mpr ⟨?_, ?_⟩
    · rw [updateMatchingBinding_map_names l fn _
        (fun fe => upsertBinding_functionName fe d fts)]
      exact hnames
    · intro fe hfe
      rcases mem_updateMatchingBinding hfe with h1 | ⟨fe2, hfe2, hx2⟩
      · exact hbindings fe h1
      · rw [hx2]
        exact bindingInvB_upsertBinding (hbindings fe2 hfe2) hd
  · have hany2 : (l.any (fun fe => fe.functionName == fn)) = false :=
      Bool.eq_false_iff.mpr hany
    rw [upsertList, if_neg (by simp [hany2])]
    refine (classInvB_iff _).mpr ⟨?_, ?_⟩
    · rw [List.map_append]
      rw [List.nodup_append]
      refine ⟨hnames, by simp, ?_⟩
      intro x hxmem hxd
      rcases List.mem_map.mp hxmem with ⟨fe2, hfe2, hx2⟩
      have hne := (List.any_eq_false).mp hany2 fe2 hfe2
      have hxd2 : x = fn := by simpa using hxd
      apply hne
      rw [hx2, hxd2]
      simp
    · intro fe hfe
      rcases List.mem_append.mp hfe with h1 | h1
      · exact hbindings fe h1
      · rw [List.mem_singleton] at h1
        rw [h1]
        refine (bindingInvB_iff _).mpr ⟨?_, ?_⟩
        · cases d <;> simp
        · intro e he
          cases hdc : d with
          | none => simp [hdc] at he
          | some d0 =>
              rw [hdc] at he
              rcases (by simpa using he : e = d0) with h2
              rw [h2]
              exact hd d0 hdc

theorem regInvB_iff (reg : Registry) :
    regInvB reg = true
    ↔ (reg.map Prod.fst).Nodup ∧ ∀ p ∈ reg, classInvB p.2 = true := by
  simp [regInvB, List.all_eq_true]

theorem classInvB_getFormEvents {reg : Registry} {c : ClassId}
    (hreg : regInvB reg = true) :
    classInvB (getFormEvents reg c) = true := by
  rcases (regInvB_iff reg).mp hreg with ⟨_, hvals⟩
  unfold getFormEvents
  cases hfind : reg.find? (fun p => p.1 == c) with
  | none => simp [classInvB]
  | some p => exact hvals p (List.mem_of_find?_eq_some hfind)

theorem mem_setFormEvents {reg : Registry} {c : ClassId}
    {l : List FormEventDetails} {q : ClassId × List FormEventDetails}
    (hq : q ∈ setFormEvents reg c l) : q ∈ reg ∨ q = (c, l) := by
  induction reg with
  | nil => exact Or.inr (List.mem_singleton.mp hq)
  | cons p rest ih =>
      by_cases h : (p.1 == c) = true
      · rw [show setFormEvents (p :: rest) c l = (c, l) :: rest from by
          simp [setFormEvents, h]] at hq
        rcases List.mem_cons.mp hq with h1 | h1
        · exact Or.inr h1
        · exact Or.inl (List.mem_cons.mpr (Or.inr h1))
      · rw [show setFormEvents (p :: rest) c l
            = p :: setFormEvents rest c l from by
          simp [setFormEvents, h]] at hq
        rcases List.mem_cons.mp hq with h1 | h1
        · exact Or.inl (List.mem_cons.mpr (Or.inl h1))
        · rcases ih h1 with h2 | h2
          · exact Or.inl (List.mem_cons.mpr (Or.inr h2))
          · exact Or.inr h2

theorem regInvB_setFormEvents {reg : Registry} {c : ClassId}
    {l : List FormEventDetails} (hreg : regInvB reg = true)
    (hl : classInvB l = true) : regInvB (setFormEvents reg c l) = true := by
  rcases (regInvB_iff reg).mp hreg with ⟨hkeys, hvals⟩
  induction reg with
  | nil =>
      refine (regInvB_iff _).mpr ⟨by simp [setFormEvents], ?_⟩
      intro p hp
      rw [List.mem_singleton.mp hp]
      exact hl
  | cons p rest ih =>
      rw [List.map_cons, List.nodup_cons] at hkeys
      by_cases h : (p.1 == c) = true
      · rw [show setFormEvents (p :: rest) c l = (c, l) :: rest from by
          simp [setFormEvents, h]]
        refine (regInvB_iff _).mpr ⟨?_, ?_⟩
        · rw [List.map_cons, List.nodup_cons]
          refine ⟨?_, hkeys.2⟩
          have hc : p.1 = c := by simpa using h
          rw [← hc]
          exact hkeys.1
        · intro q hq
          rcases List.mem_cons.mp hq with h1 | h1
          · rw [h1]
            exact hl
          · exact hvals q (List.mem_cons.mpr (Or.inr h1))
      · rw [show setFormEvents (p :: rest) c l
            = p :: setFormEvents rest c l from by
          simp [setFormEvents, h]]
        have hrest : regInvB rest = true := by
          refine (regInvB_iff _).mpr ⟨hkeys.2, ?_⟩
          intro q hq
          exact hvals q (List.mem_cons.mpr (Or.inr hq))
        have hih := ih hrest hkeys.2
          (fun q hq => hvals q (List.mem_cons.mpr (Or.inr hq)))
        rcases (regInvB_iff _).mp hih with ⟨hk2, hv2⟩
        refine (regInvB_iff _).mpr ⟨?_, ?_⟩
        · rw [List.map_cons, List.nodup_cons]
          refine ⟨?_, hk2⟩
          intro hmem
          rcases List.mem_map.mp hmem with ⟨q, hq, hq2⟩
          rcases mem_setFormEvents hq with h2 | h2
          · exact hkeys.1 (List.mem_map.mpr ⟨q, h2, hq2⟩)
          · apply h
            rw [← hq2, h2]
            simp
        · intro q hq
          rcases List.mem_cons.mp hq with h1 | h1
          · rw [h1]
            exact hvals p (List.mem_cons.mpr (Or.inl rfl))
          · exact hv2 q h1

theorem regInvB_upsertFunctionEvent {reg : Registry} {c : ClassId}
    {fn : String} {d : Option EventDetail} {fts : Option (List FormType)}
    (hreg : regInvB reg = true)
    (hd : ∀ d0, d = some d0 → detailInvB d0 = true) :
    regInvB (upsertFunctionEvent reg c fn d fts) = true :=
  regInvB_setFormEvents hreg
    (classInvB_upsertList (classInvB_getFormEvents hreg) hd)

theorem regInvB_foldl_applyRCall (calls : List RCall)
    (hcalls : ∀ cl ∈ calls, rcallInvB cl = true) (reg : Registry)
    (hreg : regInvB reg = true) :
    regInvB (calls.foldl applyRCall reg) = true := by
  induction calls generalizing reg with
  | nil => exact hreg
  | cons cl rest ih =>
      rw [List.foldl_cons]
      refine ih (fun x hx => hcalls x (List.mem_cons.mpr (Or.inr hx))) _ ?_
      refine regInvB_upsertFunctionEvent hreg ?_
      intro d0 hd0
      have := hcalls cl (List.mem_cons.mpr (Or.inl rfl))
      rw [rcallInvB, hd0] at this
      exact this

theorem setFormEvents_setFormEvents (reg : Registry) (c : ClassId)
    (l l2 : List FormEventDetails) :
    setFormEvents (setFormEvents reg c l) c l2 = setFormEvents reg c l2 := by
  induction reg with
  | nil => simp [setFormEvents]
  | cons p rest ih =>
      by_cases h : (p.1 == c) = true
      · simp [setFormEvents, h]
      · simp [setFormEvents, h, ih]

theorem any_name_map (l : List FormEventDetails) (fn : String) :
    l.any (fun fe => fe.functionName == fn)
      = (l.map (fun fe => fe.functionName)).any (fun x => x == fn) := by
  induction l with
  | nil => rfl
  | cons fe rest ih => simp [List.any_cons, ih]

theorem any_type_map (evs : List EventDetail) (t : FormEventTypes) :
    evs.any (fun e => e.type == t)
      = (evs.map (fun e => e.type)).any (fun x => x == t) := by
  induction evs with
  | nil => rfl
  | cons e rest ih => simp [List.any_cons, ih]

theorem upsertList_any_self (l : List FormEventDetails) (fn : String)
    (d : Option EventDetail) (fts : Option (List FormType)) :
    (upsertList l fn d fts).any (fun fe => fe.functionName == fn) = true := by
  by_cases hany : (l.any (fun fe => fe.functionName == fn)) = true
  · rw [upsertList, if_pos hany, any_name_map,
      updateMatchingBinding_map_names l fn _
        (fun fe => upsertBinding_functionName fe d fts),
      ← any_name_map, hany]
  · have hany2 := Bool.eq_false_iff.mpr hany
    rw [upsertList, if_neg (by simp [hany2]), List.any_append]
    simp

theorem bindingFor_updateMatchingBinding (l : List FormEventDetails)
    (fn : String) (f : FormEventDetails → FormEventDetails)
    (hf : ∀ fe, (f fe).functionName = fe.functionName) :
    bindingFor (updateMatchingBinding l fn f) fn
      = (bindingFor l fn).map f := by
  induction l with
  | nil => rfl
  | cons fe rest ih =>
      by_cases h : (fe.functionName == fn) = true
      · rw [show updateMatchingBinding (fe :: rest) fn f = f fe :: rest
          from by simp [updateMatchingBinding, h]]
        simp [bindingFor, List.find?_cons, h, hf]
      · rw [show updateMatchingBinding (fe :: rest) fn f
            = fe :: updateMatchingBinding rest fn f from by
          simp [updateMatchingBinding, h]]
        simp only [bindingFor, List.find?_cons, h]
        simpa [bindingFor] using ih

theorem bindingFor_upsertList (l : List FormEventDetails) (fn : String)
    (d : Option EventDetail) (fts : Option (List FormType)) :
    bindingFor (upsertList l fn d fts) fn
      = slotStep fn (bindingFor l fn) { detail := d, formTypes := fts } := by
  by_cases hany : (l.any (fun fe => fe.functionName == fn)) = true
  · rw [upsertList, if_pos hany,
      bindingFor_updateMatchingBinding l fn _
        (fun fe => upsertBinding_functionName fe d fts)]
    have hsome : (bindingFor l fn).isSome := by
      rw [bindingFor, List.find?_isSome]
      rcases List.any_eq_true.mp hany with ⟨fe, hfe, hp⟩
      exact ⟨fe, hfe, hp⟩
    rcases Option.isSome_iff_exists.mp hsome with ⟨fe, hfe⟩
    rw [hfe]
    rfl
  · have hany2 := Bool.eq_false_iff.mpr hany
    have hnone : bindingFor l fn = none := by
      rw [bindingFor, List.find?_eq_none]
      intro x hx
      have := List.any_eq_false.mp hany2 x hx
      simpa using this
    rw [upsertList, if_neg (by simp [hany2]), hnone]
    rw [bindingFor, List.find?_append,
      show List.find? (fun fe => fe.functionName == fn) l = none from hnone]
    simp [List.find?_cons, slotStep]

theorem bindingFor_upsertFunctionEvent (reg : Registry) (c : ClassId)
    (fn : String) (d : Option EventDetail) (fts : Option (List FormType)) :
    bindingFor (getFormEvents (upsertFunctionEvent reg c fn d fts) c) fn
      = slotStep fn (bindingFor (getFormEvents reg c) fn)
          { detail := d, formTypes := fts } := by
  rw [upsertFunctionEvent, getFormEvents_set, bindingFor_upsertList]

theorem updateMatchingEvent_twice (evs : List EventDetail)
    (d : EventDetail) :
    updateMatchingEvent (updateMatchingEvent evs d) d
      = updateMatchingEvent evs d := by
  induction evs with
  | nil => rfl
  | cons e rest ih =>
      by_cases h : (e.type == d.type) = true
      · rw [show updateMatchingEvent (e :: rest) d
            = mergeEventDetail e d :: rest from by
          simp [updateMatchingEvent, h]]
        rw [show updateMatchingEvent (mergeEventDetail e d :: rest) d
            = mergeEventDetail (mergeEventDetail e d) d :: rest from by
          simp [updateMatchingEvent, mergeEventDetail_type, h]]
        rw [mergeEventDetail_idem]
      · rw [show updateMatchingEvent (e :: rest) d
            = e :: updateMatchingEvent rest d from by
          simp [updateMatchingEvent, h]]
        rw [show updateMatchingEvent (e :: updateMatchingEvent rest d) d
            = e :: updateMatchingEvent (updateMatchingEvent rest d) d from by
          simp [updateMatchingEvent, h]]
        rw [ih]

theorem updateMatchingEvent_append_fresh (evs : List EventDetail)
    (d : EventDetail)
    (h : ∀ e ∈ evs, (e.type == d.type) = false) :
    updateMatchingEvent (evs ++ [d]) d = evs ++ [d] := by
  induction evs with
  | nil => simp [updateMatchingEvent, mergeEventDetail_self]
  | cons e rest ih =>
      have he := h e (List.mem_cons.mpr (Or.inl rfl))
      rw [List.cons_append,
        show updateMatchingEvent (e :: (rest ++ [d])) d
          = e :: updateMatchingEvent (rest ++ [d]) d from by
          simp [updateMatchingEvent, he],
        ih (fun x hx => h x (List.mem_cons.mpr (Or.inr hx)))]

theorem applyEventDetail_any_self (evs : List EventDetail)
    (d : EventDetail) :
    (applyEventDetail evs d).any (fun e => e.type == d.type) = true := by
  by_cases hany : (evs.any (fun e => e.type == d.type)) = true
  · rw [applyEventDetail, if_pos hany, any_type_map,
      updateMatchingEvent_types, ← any_type_map, hany]
  · have hany2 := Bool.eq_false_iff.mpr hany
    rw [applyEventDetail, if_neg (by simp [hany2]), List.any_append]
    simp

theorem applyEventDetail_idem (evs : List EventDetail) (d : EventDetail) :
    applyEventDetail (applyEventDetail evs d) d = applyEventDetail evs d := by
  have h1 : applyEventDetail (applyEventDetail evs d) d
      = if (applyEventDetail evs d).any (fun e => e.type == d.type) then
          updateMatchingEvent (applyEventDetail evs d) d
        else (applyEventDetail evs d) ++ [d] := rfl
  rw [h1, if_pos (applyEventDetail_any_self evs d)]
  by_cases hany : (evs.any (fun e => e.type == d.type)) = true
  · rw [applyEventDetail, if_pos hany, updateMatchingEvent_twice]
  · have hany2 := Bool.eq_false_iff.mpr hany
    rw [applyEventDetail, if_neg (by simp [hany2])]
    exact updateMatchingEvent_append_fresh evs d
      (fun e he => Bool.eq_false_iff.mpr (List.any_eq_false.mp hany2 e he))

theorem upsertBinding_idem (fe : FormEventDetails) (d : Option EventDetail)
    (fts : Option (List FormType)) :
    upsertBinding (upsertBinding fe d fts) d fts = upsertBinding fe d fts := by
  cases d <;> cases fts <;>
    simp [upsertBinding, applyEventDetail_idem, mergeUnique_absorb]

theorem newBinding_saturated (fn : String) (d : Option EventDetail)
    (fts : Option (List FormType)) :
    upsertBinding { functionName := fn, formTypes := fts,
                    events := d.toList } d fts
      = { functionName := fn, formTypes := fts, events := d.toList } := by
  cases d <;> cases fts <;>
    simp [upsertBinding, applyEventDetail, updateMatchingEvent,
      mergeEventDetail_self, mergeUnique_self]

theorem updateMatchingBinding_eq_self (l : List FormEventDetails)
    (fn : String) (f : FormEventDetails → FormEventDetails)
    (h : ∀ fe, bindingFor l fn = some fe → f fe = fe) :
    updateMatchingBinding l fn f = l := by
  induction l with
  | nil => rfl
  | cons b rest ih =>
      by_cases hb : (b.functionName == fn) = true
      · have hfind : bindingFor (b :: rest) fn = some b := by
          simp [bindingFor, List.find?_cons, hb]
        rw [show updateMatchingBinding (b :: rest) fn f = f b :: rest
          from by simp [updateMatchingBinding, hb], h b hfind]
      · rw [show updateMatchingBinding (b :: rest) fn f
            = b :: updateMatchingBinding rest fn f from by
          simp [updateMatchingBinding, hb]]
        rw [ih ?_]
        intro fe hfe
        apply h
        simp [bindingFor, List.find?_cons, hb]
        simpa [bindingFor] using hfe

theorem upsertList_idem (l : List FormEventDetails) (fn : String)
    (d : Option EventDetail) (fts : Option (List FormType)) :
    upsertList (upsertList l fn d fts) fn d fts = upsertList l fn d fts := by
  have h1 : upsertList (upsertList l fn d fts) fn d fts
      = if (upsertList l fn d fts).any (fun fe => fe.functionName == fn) then
          updateMatchingBinding (upsertList l fn d fts) fn
            (fun fe => upsertBinding fe d fts)
        else (upsertList l fn d fts)
          ++ [{ functionName := fn, formTypes := fts,
                events := d.toList }] := rfl
  rw [h1, if_pos (upsertList_any_self l fn d fts)]
  apply updateMatchingBinding_eq_self
  intro fe hfe
  rw [bindingFor_upsertList] at hfe
  cases hb : bindingFor l fn with
  | none =>
      rw [hb] at hfe
      have heq : fe = { functionName := fn, formTypes := fts,
                        events := d.toList } := by
        simpa [slotStep] using hfe.symm
      rw [heq]
      exact newBinding_saturated fn d fts
  | some fe0 =>
      rw [hb] at hfe
      have heq : fe = upsertBinding fe0 d fts := by
        simpa [slotStep] using hfe.symm
      rw [heq]
      exact upsertBinding_idem fe0 d fts

theorem upsertFunctionEvent_idem (reg : Registry) (c : ClassId)
    (fn : String) (d : Option EventDetail) (fts : Option (List FormType)) :
    upsertFunctionEvent (upsertFunctionEvent reg c fn d fts) c fn d fts
      = upsertFunctionEvent reg c fn d fts := by
  rw [show upsertFunctionEvent (upsertFunctionEvent reg c fn d fts) c fn d fts
      = setFormEvents (upsertFunctionEvent reg c fn d fts) c
          (upsertList (getFormEvents (upsertFunctionEvent reg c fn d fts) c)
            fn d fts) from rfl]
  rw [show getFormEvents (upsertFunctionEvent reg c fn d fts) c
      = upsertList (getFormEvents reg c) fn d fts from by
    rw [upsertFunctionEvent, getFormEvents_set]]
  rw [upsertList_idem]
  rw [show upsertFunctionEvent reg c fn d fts
      = setFormEvents reg c (upsertList (getFormEvents reg c) fn d fts)
      from rfl]
  rw [setFormEvents_setFormEvents]

/-- C6 (amended): after any sequence of upsert calls whose individual
name lists are duplicate-free, the registry holds at most one entry per
class, at most one MethodBinding per (class, method), at most one
EventBinding per EventKind within a binding, and duplicate-free
component-name sets (so inserting an already-present name is a no-op);
and repeating an upsert call with the identical arguments leaves the
registry — hence the MethodBinding — unchanged. (The original claim
fails only for a name duplicated within a single call's own name list,
which the code stores verbatim.) -/
theorem registry_invariants_idempotent (calls : List RCall)
    (hcalls : ∀ cl ∈ calls, rcallInvB cl = true) (reg : Registry)
    (c : ClassId) (fn : String) (d : Option EventDetail)
    (fts : Option (List FormType)) :
    regInvB (calls.foldl applyRCall []) = true
  ∧ upsertFunctionEvent (upsertFunctionEvent reg c fn d fts) c fn d fts
      = upsertFunctionEvent reg c fn d fts :=
  ⟨regInvB_foldl_applyRCall calls hcalls [] rfl,
   upsertFunctionEvent_idem reg c fn d fts⟩

/-- C6 witness: two overlapping component-event upserts plus a form-type
upsert for one method, and one upsert for a second class, keep the
invariants; the repeated call is literally absorbed. -/
theorem registry_invariants_idempotent_witness :
    regInvB ([
      { classId := 0, functionName := "m",
        detail := some { type := FormEventTypes.OnChange,
                         componentNames := some ["a", "b"] },
        formTypes := none },
      { classId := 0, functionName := "m",
        detail := some { type := FormEventTypes.OnChange,
                         componentNames := some ["b", "c"] },
        formTypes := none },
      { classId := 0, functionName := "m", detail := none,
        formTypes := some [FormType.Create] },
      { classId := 1, functionName := "k",
        detail := some { type := FormEventTypes.OnSave,
                         componentNames := none },
        formTypes := none } ].foldl applyRCall []) = true
  ∧ upsertFunctionEvent
      (upsertFunctionEvent [] 0 "m"
        (some { type := FormEventTypes.OnChange,
                componentNames := some ["a", "b"] })
        (some [FormType.Create])) 0 "m"
      (some { type := FormEventTypes.OnChange,
              componentNames := some ["a", "b"] })
      (some [FormType.Create])
    = upsertFunctionEvent [] 0 "m"
        (some { type := FormEventTypes.OnChange,
                componentNames := some ["a", "b"] })
        (some [FormType.Create]) :=
  registry_invariants_idempotent _ (by decide) [] 0 "m"
    (some { type := FormEventTypes.OnChange,
            componentNames := some ["a", "b"] })
    (some [FormType.Create])

theorem upsertBinding_events (fe : FormEventDetails) (d : Option EventDetail)
    (fts : Option (List FormType)) :
    (upsertBinding fe d fts).events
      = match d with
        | some d0 => applyEventDetail fe.events d0
        | none => fe.events := by
  cases d <;> cases fts <;> rfl

theorem upsertBinding_formTypes (fe : FormEventDetails)
    (d : Option EventDetail) (fts : Option (List FormType)) :
    (upsertBinding fe d fts).formTypes
      = match fts with
        | some f0 => some (mergeUnique (fe.formTypes.getD []) f0)
        | none => fe.formTypes := by
  cases d <;> cases fts <;> rfl

theorem contains_mergeUnique {α : Type} [BEq α] [LawfulBEq α]
    (a b : List α) (x : α) :
    (mergeUnique a b).contains x = (a.contains x || b.contains x) := by
  apply Bool.eq_iff_iff.mpr
  constructor
  · intro h
    have hx : x ∈ mergeUnique a b := by simpa using h
    rcases (mem_mergeUnique a b x).mp hx with h1 | h1 <;> simp [h1]
  · intro h
    have hm : x ∈ a ∨ x ∈ b := by
      by_cases hxa : x ∈ a
      · exact Or.inl hxa
      · right
        have hca : a.contains x = false := by simpa using hxa
        rw [hca, Bool.false_or] at h
        simpa using h
    simpa using (mem_mergeUnique a b x).mpr hm

theorem any_perm {α : Type} {l l2 : List α} (h : l.Perm l2)
    (p : α → Bool) : l.any p = l2.any p := by
  apply Bool.eq_iff_iff.mpr
  simp only [List.any_eq_true]
  constructor
  · rintro ⟨x, hx, hp⟩
    exact ⟨x, h.mem_iff.mp hx, hp⟩
  · rintro ⟨x, hx, hp⟩
    exact ⟨x, h.mem_iff.mpr hx, hp⟩

theorem bindingFor_applyCalls (reg : Registry) (c : ClassId) (fn : String)
    (cs : List Call) :
    bindingFor (getFormEvents (applyCalls reg c fn cs) c) fn
      = cs.foldl (slotStep fn) (bindingFor (getFormEvents reg c) fn) := by
  induction cs generalizing reg with
  | nil => rfl
  | cons cl rest ih =>
      have h1 : applyCalls reg c fn (cl :: rest)
          = applyCalls (upsertFunctionEvent reg c fn cl.detail cl.formTypes)
              c fn rest := rfl
      rw [h1, ih, List.foldl_cons, bindingFor_upsertFunctionEvent]

theorem detailWT_mergeEventDetail {e d : EventDetail}
    (he : detailWT e = true) : detailWT (mergeEventDetail e d) = true := by
  cases hec : e.componentNames with
  | none =>
      rw [show mergeEventDetail e d = e from by simp [mergeEventDetail, hec]]
      exact he
  | some en =>
      cases hdc : d.componentNames with
      | none =>
          rw [show mergeEventDetail e d = e from by
            simp [mergeEventDetail, hec, hdc]]
          exact he
      | some dn =>
          rw [show mergeEventDetail e d
              = { e with componentNames := some (mergeUnique en dn) } from by
            simp [mergeEventDetail, hec, hdc]]
          simpa [detailWT, hec] using he

theorem slotWT_slotStep {fn : String} {s : Option FormEventDetails}
    {cl : Call} (hs : slotWT s = true) (hcl : callWT cl = true) :
    slotWT (slotStep fn s cl) = true := by
  cases s with
  | none =>
      cases hd : cl.detail with
      | none => simp [slotStep, slotWT, hd]
      | some d =>
          have hdw : detailWT d = true := by simpa [callWT, hd] using hcl
          simp [slotStep, slotWT, hd, hdw]
  | some fe =>
      have hall : ∀ e ∈ fe.events, detailWT e = true := by
        have h2 := hs
        simp [slotWT, List.all_eq_true] at h2
        exact h2
      cases hd : cl.detail with
      | none =>
          have hev : (upsertBinding fe none cl.formTypes).events
              = fe.events := by cases cl.formTypes <;> rfl
          simp only [slotStep, slotWT, hd, hev, List.all_eq_true]
          exact hall
      | some d =>
          have hdw : detailWT d = true := by simpa [callWT, hd] using hcl
          have hev : (upsertBinding fe (some d) cl.formTypes).events
              = applyEventDetail fe.events d := by cases cl.formTypes <;> rfl
          simp only [slotStep, slotWT, hd, hev, List.all_eq_true]
          intro e he
          by_cases hany : (fe.events.any (fun x => x.type == d.type)) = true
          · rw [applyEventDetail, if_pos hany] at he
            rcases mem_updateMatchingEvent he with h1 | ⟨e2, he2, hx⟩
            · exact hall e h1
            · rw [hx]
              exact detailWT_mergeEventDetail (hall e2 he2)
          · rw [applyEventDetail,
              if_neg (by simp [Bool.eq_false_iff.mpr hany])] at he
            rcases List.mem_append.mp he with h1 | h1
            · exact hall e h1
            · rw [List.mem_singleton.mp h1]
              exact hdw

theorem applyEventDetail_any_type (evs : List EventDetail)
    (d : EventDetail) (t : FormEventTypes) :
    (applyEventDetail evs d).any (fun e => e.type == t)
      = (evs.any (fun e => e.type == t) || (d.type == t)) := by
  by_cases hany : (evs.any (fun e => e.type == d.type)) = true
  · rw [applyEventDetail, if_pos hany, any_type_map,
      updateMatchingEvent_types, ← any_type_map]
    by_cases hdt : (d.type == t) = true
    · have hdt2 : d.type = t := by simpa using hdt
      rcases List.any_eq_true.mp hany with ⟨e, he, hp⟩
      have het : (e.type == t) = true := by
        have h3 : e.type = d.type := by simpa using hp
        simp [h3, hdt2]
      have h4 : evs.any (fun e => e.type == t) = true :=
        List.any_eq_true.mpr ⟨e, he, het⟩
      rw [h4, hdt]
      rfl
    · rw [Bool.eq_false_iff.mpr hdt, Bool.or_false]
  · have hany2 := Bool.eq_false_iff.mpr hany
    rw [applyEventDetail, if_neg (by simp [hany2]), List.any_append]
    simp

theorem updateMatchingEvent_any_name (evs : List EventDetail)
    (d : EventDetail) (t : FormEventTypes) (n : String)
    (hany : evs.any (fun e => e.type == d.type) = true)
    (hevs : ∀ e ∈ evs, detailWT e = true) (hd : detailWT d = true) :
    (updateMatchingEvent evs d).any
        (fun e => e.type == t && (e.componentNames.getD []).contains n)
      = (evs.any
          (fun e => e.type == t && (e.componentNames.getD []).contains n)
         || (d.type == t && (d.componentNames.getD []).contains n)) := by
  induction evs with
  | nil => simp at hany
  | cons e rest ih =>
      by_cases h : (e.type == d.type) = true
      · rw [show updateMatchingEvent (e :: rest) d
            = mergeEventDetail e d :: rest from by
          simp [updateMatchingEvent, h]]
        rw [List.any_cons, List.any_cons]
        have het : e.type = d.type := by simpa using h
        have hwte := hevs e (List.mem_cons_self e rest)
        have hsame : e.componentNames.isSome = d.componentNames.isSome := by
          have hw1 : e.componentNames.isSome
              = isComponentEventType e.type := by
            simpa [detailWT] using hwte
          have hw2 : d.componentNames.isSome
              = isComponentEventType d.type := by
            simpa [detailWT] using hd
          rw [hw1, hw2, het]
        cases hec : e.componentNames with
        | none =>
            have hdc : d.componentNames = none := by
              cases hdc2 : d.componentNames with
              | none => rfl
              | some dn =>
                  rw [hec, hdc2] at hsame
                  simp at hsame
            rw [show mergeEventDetail e d = e from by
              simp [mergeEventDetail, hec]]
            rw [hdc]
            simp [hec]
        | some en =>
            have hdcs : d.componentNames.isSome = true := by
              rw [hec] at hsame
              exact hsame.symm
            rcases Option.isSome_iff_exists.mp hdcs with ⟨dn, hdc⟩
            rw [show mergeEventDetail e d
                = { e with componentNames := some (mergeUnique en dn) }
              from by simp [mergeEventDetail, hec, hdc]]
            simp only [hec, hdc, Option.getD_some]
            rw [contains_mergeUnique, het]
            generalize (d.type == t) = a
            generalize en.contains n = b
            generalize dn.contains n = c2
            generalize rest.any
              (fun e => e.type == t
                && (e.componentNames.getD []).contains n) = r
            cases a <;> cases b <;> cases c2 <;> cases r <;> rfl
      · rw [show updateMatchingEvent (e :: rest) d
            = e :: updateMatchingEvent rest d from by
          simp [updateMatchingEvent, h]]
        have hrest : rest.any (fun e => e.type == d.type) = true := by
          rcases List.any_eq_true.mp hany with ⟨x, hx, hp⟩
          rcases List.mem_cons.mp hx with h1 | h1
          · exact absurd (by rw [← h1]; exact hp) h
          · exact List.any_eq_true.mpr ⟨x, h1, hp⟩
        rw [List.any_cons, List.any_cons,
          ih hrest (fun x hx => hevs x (List.mem_cons.mpr (Or.inr hx)))]
        rw [Bool.or_assoc]

theorem applyEventDetail_any_name (evs : List EventDetail)
    (d : EventDetail) (t : FormEventTypes) (n : String)
    (hevs : ∀ e ∈ evs, detailWT e = true) (hd : detailWT d = true) :
    (applyEventDetail evs d).any
        (fun e => e.type == t && (e.componentNames.getD []).contains n)
      = (evs.any
          (fun e => e.type == t && (e.componentNames.getD []).contains n)
         || (d.type == t && (d.componentNames.getD []).contains n)) := by
  by_cases hany : (evs.any (fun e => e.type == d.type)) = true
  · rw [applyEventDetail, if_pos hany]
    exact updateMatchingEvent_any_name evs d t n hany hevs hd
  · have hany2 := Bool.eq_false_iff.mpr hany
    rw [applyEventDetail, if_neg (by simp [hany2]), List.any_append]
    simp

theorem obsHasKind_slotStep (fn : String) (t : FormEventTypes)
    (s : Option FormEventDetails) (cl : Call) :
    obsHasKind (slotStep fn s cl) t
      = (obsHasKind s t
         || (match cl.detail with
             | some d => d.type == t
             | none => false)) := by
  cases s with
  | none =>
      cases hd : cl.detail with
      | none => simp [slotStep, obsHasKind, hd]
      | some d => simp [slotStep, obsHasKind, hd]
  | some fe =>
      cases hd : cl.detail with
      | none =>
          have hev : (upsertBinding fe none cl.formTypes).events
              = fe.events := by cases cl.formTypes <;> rfl
          simp [slotStep, obsHasKind, hd, hev]
      | some d =>
          have hev : (upsertBinding fe (some d) cl.formTypes).events
              = applyEventDetail fe.events d := by cases cl.formTypes <;> rfl
          simp only [slotStep, obsHasKind, hd, hev]
          exact applyEventDetail_any_type fe.events d t

theorem obsHasName_slotStep (fn : String) (t : FormEventTypes) (n : String)
    (s : Option FormEventDetails) (cl : Call) (hs : slotWT s = true)
    (hcl : callWT cl = true) :
    obsHasName (slotStep fn s cl) t n
      = (obsHasName s t n
         || (match cl.detail with
             | some d => d.type == t && (d.componentNames.getD []).contains n
             | none => false)) := by
  cases s with
  | none =>
      cases hd : cl.detail with
      | none => simp [slotStep, obsHasName, hd]
      | some d => simp [slotStep, obsHasName, hd]
  | some fe =>
      have hall : ∀ e ∈ fe.events, detailWT e = true := by
        have h2 := hs
        simp [slotWT, List.all_eq_true] at h2
        exact h2
      cases hd : cl.detail with
      | none =>
          have hev : (upsertBinding fe none cl.formTypes).events
              = fe.events := by cases cl.formTypes <;> rfl
          simp [slotStep, obsHasName, hd, hev]
      | some d =>
          have hdw : detailWT d = true := by simpa [callWT, hd] using hcl
          have hev : (upsertBinding fe (some d) cl.formTypes).events
              = applyEventDetail fe.events d := by cases cl.formTypes <;> rfl
          simp only [slotStep, obsHasName, hd, hev]
          exact applyEventDetail_any_name fe.events d t n hall hdw

theorem obsModesSet_slotStep (fn : String) (s : Option FormEventDetails)
    (cl : Call) :
    obsModesSet (slotStep fn s cl)
      = (obsModesSet s || cl.formTypes.isSome) := by
  cases s with
  | none => simp [slotStep, obsModesSet]
  | some fe =>
      cases hf : cl.formTypes with
      | none => simp [slotStep, obsModesSet, upsertBinding_formTypes, hf]
      | some f0 => simp [slotStep, obsModesSet, upsertBinding_formTypes, hf]

theorem obsHasMode_slotStep (fn : String) (m : FormType)
    (s : Option FormEventDetails) (cl : Call) :
    obsHasMode (slotStep fn s cl) m
      = (obsHasMode s m || (cl.formTypes.getD []).contains m) := by
  cases s with
  | none => simp [slotStep, obsHasMode]
  | some fe =>
      cases hf : cl.formTypes with
      | none => simp [slotStep, obsHasMode, upsertBinding_formTypes, hf]
      | some f0 =>
          simp only [slotStep, obsHasMode, upsertBinding_formTypes, hf,
            Option.getD_some]
          exact contains_mergeUnique (fe.formTypes.getD []) f0 m

theorem foldl_slotStep_obs (fn : String)
    (obs : Option FormEventDetails → Bool) (cobs : Call → Bool)
    (hstep : ∀ s cl, slotWT s = true → callWT cl = true →
      obs (slotStep fn s cl) = (obs s || cobs cl)) :
    ∀ cs : List Call, ∀ s, slotWT s = true →
      (∀ cl ∈ cs, callWT cl = true) →
      obs (cs.foldl (slotStep fn) s) = (obs s || cs.any cobs) := by
  intro cs
  induction cs with
  | nil =>
      intro s hs hcs
      simp
  | cons cl rest ih =>
      intro s hs hcs
      have hcl : callWT cl = true := hcs cl (List.mem_cons_self cl rest)
      rw [List.foldl_cons,
        ih (slotStep fn s cl) (slotWT_slotStep hs hcl)
          (fun x hx => hcs x (List.mem_cons.mpr (Or.inr hx))),
        hstep s cl hs hcl, List.any_cons, Bool.or_assoc]

/-- C2: applying a permutation of a sequence of upsert calls targeting
one (class, method) yields a MethodBinding with the same declared event
kinds, the same component-name sets per kind (as sets), and the same
form-mode filter (same presence, same members), provided each call is
well-typed in the sense of the source's union type (component kinds carry
a name list, global kinds do not). -/
theorem upsert_order_independence (reg : Registry) (c : ClassId)
    (fn : String) (cs cs2 : List Call) (hperm : cs.Perm cs2)
    (hwt : ∀ cl ∈ cs, callWT cl = true)
    (hslot : slotWT (bindingFor (getFormEvents reg c) fn) = true) :
    (∀ t, obsHasKind
        (bindingFor (getFormEvents (applyCalls reg c fn cs) c) fn) t
      = obsHasKind
        (bindingFor (getFormEvents (applyCalls reg c fn cs2) c) fn) t)
  ∧ (∀ t n, obsHasName
        (bindingFor (getFormEvents (applyCalls reg c fn cs) c) fn) t n
      = obsHasName
        (bindingFor (getFormEvents (applyCalls reg c fn cs2) c) fn) t n)
  ∧ (obsModesSet
        (bindingFor (getFormEvents (applyCalls reg c fn cs) c) fn)
      = obsModesSet
        (bindingFor (getFormEvents (applyCalls reg c fn cs2) c) fn))
  ∧ (∀ m, obsHasMode
        (bindingFor (getFormEvents (applyCalls reg c fn cs) c) fn) m
      = obsHasMode
        (bindingFor (getFormEvents (applyCalls reg c fn cs2) c) fn) m) := by
  have hwt2 : ∀ cl ∈ cs2, callWT cl = true :=
    fun cl hcl => hwt cl (hperm.mem_iff.mpr hcl)
  refine ⟨?_, ?_, ?_, ?_⟩
  · intro t
    rw [bindingFor_applyCalls, bindingFor_applyCalls]
    rw [foldl_slotStep_obs fn (fun s => obsHasKind s t)
        (fun cl => match cl.detail with
          | some d => d.type == t
          | none => false)
        (fun s cl _ _ => obsHasKind_slotStep fn t s cl) cs _ hslot hwt,
      foldl_slotStep_obs fn (fun s => obsHasKind s t)
        (fun cl => match cl.detail with
          | some d => d.type == t
          | none => false)
        (fun s cl _ _ => obsHasKind_slotStep fn t s cl) cs2 _ hslot hwt2,
      any_perm hperm]
  · intro t n
    rw [bindingFor_applyCalls, bindingFor_applyCalls]
    rw [foldl_slotStep_obs fn (fun s => obsHasName s t n)
        (fun cl => match cl.detail with
          | some d => d.type == t && (d.componentNames.getD []).contains n
          | none => false)
        (fun s cl hs hcl => obsHasName_slotStep fn t n s cl hs hcl)
        cs _ hslot hwt,
      foldl_slotStep_obs fn (fun s => obsHasName s t n)
        (fun cl => match cl.detail with
          | some d => d.type == t && (d.componentNames.getD []).contains n
          | none => false)
        (fun s cl hs hcl => obsHasName_slotStep fn t n s cl hs hcl)
        cs2 _ hslot hwt2,
      any_perm hperm]
  · rw [bindingFor_applyCalls, bindingFor_applyCalls]
    rw [foldl_slotStep_obs fn obsModesSet
        (fun cl => cl.formTypes.isSome)
        (fun s cl _ _ => obsModesSet_slotStep fn s cl) cs _ hslot hwt,
      foldl_slotStep_obs fn obsModesSet
        (fun cl => cl.formTypes.isSome)
        (fun s cl _ _ => obsModesSet_slotStep fn s cl) cs2 _ hslot hwt2,
      any_perm hperm]
  · intro m
    rw [bindingFor_applyCalls, bindingFor_applyCalls]
    rw [foldl_slotStep_obs fn (fun s => obsHasMode s m)
        (fun cl => (cl.formTypes.getD []).contains m)
        (fun s cl _ _ => obsHasMode_slotStep fn m s cl) cs _ hslot hwt,
      foldl_slotStep_obs fn (fun s => obsHasMode s m)
        (fun cl => (cl.formTypes.getD []).contains m)
        (fun s cl _ _ => obsHasMode_slotStep fn m s cl) cs2 _ hslot hwt2,
      any_perm hperm]

/-- C2 witness: the three calls OnChange{a}, OnChange{b}, FormTypes{Create}
permuted to front-to-back order produce identical observations. -/
theorem upsert_order_independence_witness :
    (∀ t, obsHasKind
        (bindingFor (getFormEvents (applyCalls [] 0 "m" [
          { detail := some { type := FormEventTypes.OnChange,
                             componentNames := some ["a"] },
            formTypes := none },
          { detail := some { type := FormEventTypes.OnChange,
                             componentNames := some ["b"] },
            formTypes := none },
          { detail := none, formTypes := some [FormType.Create] } ]) 0) "m") t
      = obsHasKind
        (bindingFor (getFormEvents (applyCalls [] 0 "m" [
          { detail := none, formTypes := some [FormType.Create] },
          { detail := some { type := FormEventTypes.OnChange,
                             componentNames := some ["b"] },
            formTypes := none },
          { detail := some { type := FormEventTypes.OnChange,
                             componentNames := some ["a"] },
            formTypes := none } ]) 0) "m") t)
  ∧ (∀ t n, obsHasName
        (bindingFor (getFormEvents (applyCalls [] 0 "m" [
          { detail := some { type := FormEventTypes.OnChange,
                             componentNames := some ["a"] },
            formTypes := none },
          { detail := some { type := FormEventTypes.OnChange,
                             componentNames := some ["b"] },
            formTypes := none },
          { detail := none, formTypes := some [FormType.Create] } ]) 0) "m")
          t n
      = obsHasName
        (bindingFor (getFormEvents (applyCalls [] 0 "m" [
          { detail := none, formTypes := some [FormType.Create] },
          { detail := some { type := FormEventTypes.OnChange,
                             componentNames := some ["b"] },
            formTypes := none },
          { detail := some { type := FormEventTypes.OnChange,
                             componentNames := some ["a"] },
            formTypes := none } ]) 0) "m") t n)
  ∧ (obsModesSet
        (bindingFor (getFormEvents (applyCalls [] 0 "m" [
          { detail := some { type := FormEventTypes.OnChange,
                             componentNames := some ["a"] },
            formTypes := none },
          { detail := some { type := FormEventTypes.OnChange,
                             componentNames := some ["b"] },
            formTypes := none },
          { detail := none, formTypes := some [FormType.Create] } ]) 0) "m")
      = obsModesSet
        (bindingFor (getFormEvents (applyCalls [] 0 "m" [
          { detail := none, formTypes := some [FormType.Create] },
          { detail := some { type := FormEventTypes.OnChange,
                             componentNames := some ["b"] },
            formTypes := none },
          { detail := some { type := FormEventTypes.OnChange,
                             componentNames := some ["a"] },
            formTypes := none } ]) 0) "m"))
  ∧ (∀ m, obsHasMode
        (bindingFor (getFormEvents (applyCalls [] 0 "m" [
          { detail := some { type := FormEventTypes.OnChange,
                             componentNames := some ["a"] },
            formTypes := none },
          { detail := some { type := FormEventTypes.OnChange,
                             componentNames := some ["b"] },
            formTypes := none },
          { detail := none, formTypes := some [FormType.Create] } ]) 0) "m") m
      = obsHasMode
        (bindingFor (getFormEvents (applyCalls [] 0 "m" [
          { detail := none, formTypes := some [FormType.Create] },
          { detail := some { type := FormEventTypes.OnChange,
                             componentNames := some ["b"] },
            formTypes := none },
          { detail := some { type := FormEventTypes.OnChange,
                             componentNames := some ["a"] },
            formTypes := none } ]) 0) "m") m) :=
  upsert_order_independence [] 0 "m"
    [ { detail := some { type := FormEventTypes.OnChange,
                         componentNames := some ["a"] },
        formTypes := none },
      { detail := some { type := FormEventTypes.OnChange,
                         componentNames := some ["b"] },
        formTypes := none },
      { detail := none, formTypes := some [FormType.Create] } ]
    [ { detail := none, formTypes := some [FormType.Create] },
      { detail := some { type := FormEventTypes.OnChange,
                         componentNames := some ["b"] },
        formTypes := none },
      { detail := some { type := FormEventTypes.OnChange,
                         componentNames := some ["a"] },
        formTypes := none } ]
    (by decide) (by decide) (by decide)

end D365
